import Mathlib

/-!
Verification of the tar export / container import core of the bootc
repository, shallowly embedded in Lean 4.

Source files embedded here:
- `src/lib/src/tar/export.rs` (OSTree commit → tar archive export)
- `src/ostree-ext/lib/src/container/import.rs` (container image → layer
  extraction pipeline)

Paths are modelled as the slash-separated strings the exporter actually
builds; byte buffers as `List Nat`; the external object store, the SHA-256
digest primitive and the tar builder are modelled as explicit data
(a `Repo` record of lookup functions, and an append-only list of
`Entry` values standing for the entries fed to `tar::Builder`).
-/

namespace Bootc

/-! ## Path layout helpers (src/lib/src/tar/export.rs) -/

/-- `OSTREEDIR` constant: `"sysroot/ostree"`. -/
def OSTREEDIR : String := "sysroot/ostree"

/-- The repository configuration blob written by the exporter, as bytes
(`REPO_CONFIG` in the source); its exact contents are irrelevant to the
claims, we keep it as the list of code points of the source string. -/
def REPO_CONFIG : List Nat := "[core]\nrepo_version=1\nmode=bare-split-xattrs\n".data.map Char.toNat

/-- The first two characters of a checksum, as used by `str::split_at(2)`
in the source (checksums are ASCII hex, so chars = bytes). -/
def strTakeTwo (c : String) : String := String.mk (c.data.take 2)

/-- The remainder of a checksum after the first two characters. -/
def strDropTwo (c : String) : String := String.mk (c.data.drop 2)

/-- Object types that `object_path` accepts (the source panics on any
other `ostree::ObjectType`, so those are not representable here). -/
inductive ObjType where
  | commit
  | commitMeta
  | dirTree
  | dirMeta
  | file
deriving DecidableEq, Repr

/-- Suffix chosen by `object_path` for each object type. -/
def objSuffix : ObjType → String
  | .commit => "commit"
  | .commitMeta => "commitmeta"
  | .dirTree => "dirtree"
  | .dirMeta => "dirmeta"
  | .file => "file"

/-- `object_path`: `sysroot/ostree/repo/objects/<first2>/<rest>.<suffix>`. -/
def object_path (objtype : ObjType) (checksum : String) : String :=
  OSTREEDIR ++ "/repo/objects/" ++ strTakeTwo checksum ++ "/" ++ strDropTwo checksum
    ++ "." ++ objSuffix objtype

/-- `v0_xattrs_path`: `sysroot/ostree/repo/xattrs/<checksum>`. -/
def v0_xattrs_path (checksum : String) : String :=
  OSTREEDIR ++ "/repo/xattrs/" ++ checksum

/-- `v0_xattrs_object_path`: `sysroot/ostree/repo/objects/<first2>/<rest>.file.xattrs`. -/
def v0_xattrs_object_path (checksum : String) : String :=
  OSTREEDIR ++ "/repo/objects/" ++ strTakeTwo checksum ++ "/" ++ strDropTwo checksum
    ++ ".file.xattrs"

/-- `v1_xattrs_object_path`: `sysroot/ostree/repo/objects/<first2>/<rest>.file-xattrs`. -/
def v1_xattrs_object_path (checksum : String) : String :=
  OSTREEDIR ++ "/repo/objects/" ++ strTakeTwo checksum ++ "/" ++ strDropTwo checksum
    ++ ".file-xattrs"

/-- `v1_xattrs_link_object_path`: `sysroot/ostree/repo/objects/<first2>/<rest>.file-xattrs-link`. -/
def v1_xattrs_link_object_path (checksum : String) : String :=
  OSTREEDIR ++ "/repo/objects/" ++ strTakeTwo checksum ++ "/" ++ strDropTwo checksum
    ++ ".file-xattrs-link"

/-- `symlink_is_denormal`: a symlink target is denormal when it contains `"//"`. -/
def symlink_is_denormal (target : String) : Bool :=
  decide ("//".data <:+: target.data)

/-- Rust `str::strip_prefix`, on strings (byte = char here since the
exporter only passes ASCII paths). -/
def stripPrefixStr (pre s : String) : Option String :=
  if pre.data.isPrefixOf s.data then some (String.mk (s.data.drop pre.data.length)) else none

/-- `map_path`: rewrite `./usr/etc…` to `./etc…` (the source uses
`Utf8Path::strip_prefix("./usr/etc")` followed by a join onto `./etc`;
on the slash-normalized path strings the exporter builds this is exactly
the string rewrite below; for the bare `./usr/etc` the source produces
the path-equal spelling `./etc/`). -/
def map_path (p : String) : String :=
  if p = "./usr/etc" then "./etc"
  else
    match stripPrefixStr "./usr/etc/" p with
    | some r => "./etc/" ++ r
    | none => p

/-- `Utf8Path::join` on the exporter's normalized path strings: add a
separator unless the directory already ends with one. -/
def joinPath (d name : String) : String :=
  if d.data.getLast? = some '/' then d ++ name else d ++ "/" ++ name

/-! ## ExportOptions and filter_mode -/

/-- Configuration for tar export (`ExportOptions`); `format_version` is a
`u32` in the source, modelled as `Nat`. -/
structure ExportOptions where
  format_version : Nat
deriving DecidableEq, Repr

/-- `libc::S_IFMT` = `0o170000`. -/
def S_IFMT : Nat := 61440

/-- `!libc::S_IFMT` as a `u32`, i.e. `0xFFFF0FFF`. -/
def S_IFMT_not32 : Nat := 4294905855

/-- `OstreeTarWriter::filter_mode`: format version 0 keeps the full mode
word, any other version masks with `!S_IFMT` (u32 complement). -/
def filter_mode (options : ExportOptions) (mode : Nat) : Nat :=
  if options.format_version = 0 then mode else Nat.land mode S_IFMT_not32

/-! ## Manifest / layer selection (src/ostree-ext/lib/src/container/import.rs) -/

/-- Modelled from the spec: the two recognized commit-bearing layer media
type strings (`DOCKER_TYPE_LAYER` and `oci::OCI_TYPE_LAYER` live in
`oci.rs`, which is not part of the provided sources; the spec only
requires that they are two fixed type strings). -/
def DOCKER_TYPE_LAYER : String := "application/vnd.docker.image.rootfs.diff.tar.gzip"

/-- Modelled from the spec: second recognized layer media type, see
`DOCKER_TYPE_LAYER`. -/
def OCI_TYPE_LAYER : String := "application/vnd.oci.image.layer.v1.tar+gzip"

/-- One manifest layer: media type and digest strings. -/
structure Layer where
  media_type : String
  digest : String
deriving DecidableEq, Repr

/-- An OCI manifest, reduced to its layer list (the only field
`find_layer_blobid` consults). -/
structure Manifest where
  layers : List Layer
deriving DecidableEq, Repr

/-- The layer filter used by `find_layer_blobid`. -/
def layerEligible (l : Layer) : Bool :=
  l.media_type == DOCKER_TYPE_LAYER || l.media_type == OCI_TYPE_LAYER

/-- `find_layer_blobid`: filter layers to the recognized media types,
demand exactly one, and strip the `sha256:` prefix from its digest. -/
def find_layer_blobid (manifest : Manifest) : Except String String :=
  let layers := manifest.layers.filter layerEligible
  let n := layers.length
  match layers with
  | [] => .error ("No layers found (orig: " ++ toString manifest.layers.length ++ ")")
  | layer :: _ =>
    if n > 1 then
      .error ("Expected 1 layer, found " ++ toString n)
    else
      let digest := layer.digest
      match stripPrefixStr "sha256:" digest with
      | some hash => .ok hash
      | none => .error ("Expected sha256: in digest: " ++ digest)

/-! ## Progress-tracking reader (`ProgressReader::poll_read`)

The wrapped stream is modelled by the sequence of byte counts delivered
by its successful reads; the `tokio::sync::watch` observer is modelled by
an oracle `sendOk` telling whether the i-th `send` succeeds (it fails
once the receiver has disconnected).  `processed_bytes` is a `u64`. -/

/-- `2^64`, the modulus of `u64` arithmetic. -/
def U64 : Nat := 2 ^ 64

/-- State of a `ProgressReader` together with its watch channel: the
value currently stored in the channel, whether `self.progress` is still
`Some`, the list of successfully published totals, and how many send
attempts have happened (index into the oracle). -/
structure PRState where
  chanVal : Nat
  hasProgress : Bool
  published : List Nat
  attempt : Nat
deriving DecidableEq, Repr

/-- One successful `poll_read` delivering `read` fresh bytes:
read the current total out of the channel, add `read` (u64), publish;
on a failed publish, drop the progress handle (`self.progress.take()`). -/
def pr_step (sendOk : Nat → Bool) (st : PRState) (read : Nat) : PRState :=
  if st.hasProgress then
    let newVal := (st.chanVal + read) % U64
    if sendOk st.attempt then
      { chanVal := newVal, hasProgress := true,
        published := st.published ++ [newVal], attempt := st.attempt + 1 }
    else
      { st with hasProgress := false, attempt := st.attempt + 1 }
  else st

/-- Initial state: fresh `ImportProgress::default()` in the channel. -/
def pr_init : PRState :=
  { chanVal := 0, hasProgress := true, published := [], attempt := 0 }

/-- Run a whole stream of successful reads through the `ProgressReader`. -/
def pr_run (sendOk : Nat → Bool) (reads : List Nat) : PRState :=
  reads.foldl (pr_step sendOk) pr_init

/-! ## Layer extraction worker (`find_layer_tar_sync`)

The outer docker-archive tar is modelled as the list of its parsed
entries; the bounded channel's consumer is modelled by the oracle
`sendOk` telling whether the i-th `blocking_send` succeeds. -/

/-- Split a character list at every occurrence of `sep` (the pieces, in
order; an empty list yields one empty piece, like `str::split`). -/
def splitOnChar (sep : Char) : List Char → List (List Char)
  | [] => [[]]
  | c :: rest =>
    let r := splitOnChar sep rest
    if c = sep then [] :: r
    else
      match r with
      | [] => [[c]]
      | h :: t => (c :: h) :: t

/-- Last path component (`Utf8Path::file_name`) on the slash-separated
path strings appearing in a docker archive. -/
def fileNameStr (p : String) : String :=
  String.mk ((splitOnChar '/' p.data).getLastD [])

/-- `Utf8Path::extension`: the part of the file name after its last dot,
or none when there is no dot or only a leading one. -/
def extensionStr (p : String) : Option String :=
  let parts := splitOnChar '.' (fileNameStr p).data
  if parts.length ≤ 1 then none
  else if parts.length = 2 ∧ parts.getD 0 [] = [] then none
  else some (String.mk (parts.getLastD []))

/-- Entry type of an outer-archive member (other = anything that is
neither a symlink nor a regular file). -/
inductive TarEntryType where
  | symlink
  | regular
  | other
deriving DecidableEq, Repr

/-- A parsed entry of the outer docker archive: its path, type, link
name (for symlinks), and for regular files the successive non-empty
chunks its contents are read in (8192-byte reads in the source). -/
structure TarEntry where
  path : String
  etype : TarEntryType
  linkName : Option String
  chunks : List (List Nat)
deriving DecidableEq, Repr

/-- Worker-side state: whether the target entry has been found, how
many channel send attempts happened, and the chunks attempted so far. -/
structure SyncSt where
  found : Bool
  sendIdx : Nat
  sent : List (List Nat)
deriving DecidableEq, Repr

/-- Initial worker state. -/
def syncInit : SyncSt := { found := false, sendIdx := 0, sent := [] }

/-- The inner forwarding loop of the `Regular` branch: read a chunk,
send it, and stop as soon as the read is empty (end of entry) or the
send fails (receiver closed).  Returns the new send index and the list
of chunks attempted.  The implicit final empty read is sent too, exactly
as in the source. -/
def forwardChunks (sendOk : Nat → Bool) : List (List Nat) → Nat → Nat × List (List Nat)
  | [], i => (i + 1, [[]])
  | c :: rest, i =>
    if ¬ sendOk i ∨ c.length = 0 then (i + 1, [c])
    else
      let (i2, s) := forwardChunks sendOk rest (i + 1)
      (i2, c :: s)

/-- Process one entry of the outer archive, mirroring the body of the
`for entry in archive.entries()?` loop. -/
def stepEntry (blob_symlink_target : String) (sendOk : Nat → Bool) (st : SyncSt)
    (e : TarEntry) : Except String SyncSt :=
  if st.found then .ok st
  else if extensionStr e.path ≠ some "tar" then .ok st
  else
    match e.etype with
    | .symlink =>
      if fileNameStr e.path = "layer.tar" then
        match e.linkName with
        | none => .error ("Invalid link " ++ e.path)
        | some target =>
          if target ≠ blob_symlink_target then
            .error ("Found unexpected layer link " ++ e.path ++ " -> " ++ target)
          else .ok st
      else .ok st
    | .regular =>
      let (i2, s) := forwardChunks sendOk e.chunks st.sendIdx
      .ok { found := true, sendIdx := i2, sent := st.sent ++ s }
    | .other => .ok st

/-- Run the entry loop over a list of entries. -/
def runEntries (blob_symlink_target : String) (sendOk : Nat → Bool)
    (entries : List TarEntry) (st : SyncSt) : Except String SyncSt :=
  entries.foldlM (stepEntry blob_symlink_target sendOk) st

/-- `find_layer_tar_sync`: scan the archive; succeed (handing the inner
reader back, modelled by returning the final state) iff the target was
found, else fail with "Failed to find layer". -/
def find_layer_tar_sync (entries : List TarEntry) (blob_symlink_target : String)
    (sendOk : Nat → Bool) : Except String SyncSt :=
  match runEntries blob_symlink_target sendOk entries syncInit with
  | .error e => .error e
  | .ok st =>
    if st.found then .ok st
    else .error ("Failed to find layer " ++ blob_symlink_target)

/-! ## The archive writer (`OstreeTarWriter`)

The tar builder is modelled by the ordered list of entries appended to
it; each writer operation returns the entries it appended.  The ostree
repository collaborator is a record of lookup functions. -/

/-- The type of a tar entry written by the exporter. -/
inductive EntryType where
  | directory
  | regular
  | link
  | symlink
deriving DecidableEq, Repr

/-- One tar entry as the exporter emits it.  `literalLink` records that
the symlink target was written with `set_link_name_literal` (denormal
targets containing `"//"`). -/
structure Entry where
  etype : EntryType
  path : String
  uid : Nat
  gid : Nat
  mode : Nat
  size : Nat
  data : List Nat
  linkTarget : String
  literalLink : Bool
deriving DecidableEq, Repr

/-- `append_default_dir`: directory entry, root/root 0755. -/
def mkDefaultDir (path : String) : Entry :=
  { etype := .directory, path := path, uid := 0, gid := 0, mode := 0o755,
    size := 0, data := [], linkTarget := "", literalLink := false }

/-- `append_default_data`: regular entry, root/root 0644, carrying `data`. -/
def mkDefaultData (path : String) (data : List Nat) : Entry :=
  { etype := .regular, path := path, uid := 0, gid := 0, mode := 0o644,
    size := data.length, data := data, linkTarget := "", literalLink := false }

/-- `append_default_hardlink`: hardlink entry, root/root 0644. -/
def mkDefaultHardlink (path target : String) : Entry :=
  { etype := .link, path := path, uid := 0, gid := 0, mode := 0o644,
    size := 0, data := [], linkTarget := target, literalLink := false }

/-- Mutable state of an `OstreeTarWriter` (minus the output stream,
which is modelled by the entry lists the operations return). -/
structure WState where
  options : ExportOptions
  wrote_initdirs : Bool
  wrote_dirtree : List String
  wrote_dirmeta : List String
  wrote_content : List String
  wrote_xattrs : List String
deriving DecidableEq, Repr

/-- `OstreeTarWriter::new`. -/
def newWriter (options : ExportOptions) : WState :=
  { options := options, wrote_initdirs := false, wrote_dirtree := [],
    wrote_dirmeta := [], wrote_content := [], wrote_xattrs := [] }

/-- Parsed directory-metadata record (`ostree::DirMetaParsed`). -/
structure DirMetaParsed where
  uid : Nat
  gid : Nat
  mode : Nat
deriving DecidableEq, Repr

/-- Parsed dirtree object: named file entries (name, content checksum)
and named subdirectories (name, contents checksum, meta checksum). -/
structure DirTreeParsed where
  files : List (String × String)
  dirs : List (String × String × String)
deriving DecidableEq, Repr

/-- The two checksums `write_commit` extracts from a commit variant:
the root dirtree contents checksum (`commit.6`) and the root dirmeta
checksum (`commit.7`). -/
structure CommitParsed where
  contents_csum : String
  metadata_csum : String
deriving DecidableEq, Repr

/-- `gio::FileType` as used by the exporter. -/
inductive GFileType where
  | regular
  | symbolicLink
  | other
deriving DecidableEq, Repr

/-- The `gio::FileInfo` fields consulted by `append_content`. -/
structure GFileInfo where
  uid : Nat
  gid : Nat
  mode : Nat
  size : Nat
  ftype : GFileType
  symlinkTarget : Option String
deriving DecidableEq, Repr

/-- The object-store collaborator (`ostree::Repo`) plus the SHA-256
primitive (`openssl::hash`), as lookup functions.  `loadFile` mirrors
`repo.load_file`: an optional content stream, optional metadata and
optional xattrs blob (the latter two being `None` is a hard error in
`append_content`). -/
structure Repo where
  commits : String → Option CommitParsed
  commitBytes : String → List Nat
  detachedMeta : String → Option (List Nat)
  dirtrees : String → Option DirTreeParsed
  dirtreeBytes : String → List Nat
  dirmetas : String → Option DirMetaParsed
  dirmetaBytes : String → List Nat
  loadFile : String → Option (Option (List Nat) × Option GFileInfo × Option (List Nat))
  sha256hex : List Nat → String

/-- `OstreeTarWriter::append`: write a metadata object, deduplicating
DirTree and DirMeta objects by checksum (Commit/CommitMeta have no dedup
set; the source panics on other object types, which is unreachable as
`append` is never called with them — modelled as a no-op). -/
def appendObj (objtype : ObjType) (checksum : String) (data : List Nat) (st : WState) :
    WState × List Entry :=
  match objtype with
  | .commit => (st, [mkDefaultData (object_path .commit checksum) data])
  | .commitMeta => (st, [mkDefaultData (object_path .commitMeta checksum) data])
  | .dirTree =>
    if checksum ∈ st.wrote_dirtree then (st, [])
    else ({ st with wrote_dirtree := checksum :: st.wrote_dirtree },
          [mkDefaultData (object_path .dirTree checksum) data])
  | .dirMeta =>
    if checksum ∈ st.wrote_dirmeta then (st, [])
    else ({ st with wrote_dirmeta := checksum :: st.wrote_dirmeta },
          [mkDefaultData (object_path .dirMeta checksum) data])
  | .file => (st, [])

/-- The `if !self.wrote_xattrs.contains(..)` block of `append_xattrs`.
Note the source's literal dedup keying: membership is tested with the
blob's own digest (`xattrs_checksum`) but the inserted key is the owning
file's `checksum`; this is reproduced exactly. -/
def xattrsBlobWrite (path : String) (xattrs_data : List Nat) (xattrs_checksum checksum : String)
    (st : WState) : WState × List Entry :=
  if xattrs_checksum ∈ st.wrote_xattrs then (st, [])
  else ({ st with wrote_xattrs := checksum :: st.wrote_xattrs },
        [mkDefaultData path xattrs_data])

/-- `OstreeTarWriter::append_xattrs`: the attribute codec, see the doc
comment of `xattrsBlobWrite` for the dedup keying. -/
def append_xattrs (repo : Repo) (st : WState) (checksum : String) (xattrs_data : List Nat) :
    Except String (Bool × WState × List Entry) :=
  if xattrs_data = [] ∧ st.options.format_version = 0 then
    .ok (false, st, [])
  else
    let xattrs_checksum := repo.sha256hex xattrs_data
    if st.options.format_version = 0 then
      let path := v0_xattrs_path xattrs_checksum
      let p := xattrsBlobWrite path xattrs_data xattrs_checksum checksum st
      .ok (true, p.1, p.2 ++ [mkDefaultHardlink (v0_xattrs_object_path checksum) path])
    else if st.options.format_version = 1 then
      let path := v1_xattrs_object_path xattrs_checksum
      let p := xattrsBlobWrite path xattrs_data xattrs_checksum checksum st
      .ok (true, p.1, p.2 ++ [mkDefaultHardlink (v1_xattrs_link_object_path checksum) path])
    else
      .error ("Unknown format version " ++ toString st.options.format_version)

/-- Tar header data returned by `append_content` for the caller's
hardlink (uid/gid/filtered mode of the file, size forced to 0). -/
structure Header where
  uid : Nat
  gid : Nat
  mode : Nat
  size : Nat
deriving DecidableEq, Repr

/-- `OstreeTarWriter::append_content`: write a file content object
(deduplicated by checksum), its xattrs first, and return the object
path and header for the caller's hardlink. -/
def append_content (repo : Repo) (st : WState) (checksum : String) :
    Except String ((String × Header) × WState × List Entry) :=
  let path := object_path .file checksum
  match repo.loadFile checksum with
  | none => .error ("load_file failed: " ++ checksum)
  | some (instream, metaOpt, xattrsOpt) =>
    match metaOpt with
    | none => .error ("Missing metadata for object " ++ checksum)
    | some meta =>
      match xattrsOpt with
      | none => .error ("Missing xattrs for object " ++ checksum)
      | some xattrs =>
        let mode := filter_mode st.options meta.mode
        let target_header : Header := { uid := meta.uid, gid := meta.gid, mode := mode, size := 0 }
        if checksum ∈ st.wrote_content then
          .ok ((path, target_header), st, [])
        else
          let st1 := { st with wrote_content := checksum :: st.wrote_content }
          match append_xattrs repo st1 checksum xattrs with
          | .error e => .error e
          | .ok (_, st2, es1) =>
            match instream with
            | some contents =>
              if meta.ftype = GFileType.regular then
                .ok ((path, target_header), st2,
                  es1 ++ [{ etype := .regular, path := path, uid := meta.uid, gid := meta.gid,
                            mode := mode, size := meta.size, data := contents,
                            linkTarget := "", literalLink := false }])
              else .error "assertion failed: file_type == Regular"
            | none =>
              if meta.ftype = GFileType.symbolicLink then
                match meta.symlinkTarget with
                | none => .error "Missing symlink target"
                | some target =>
                  .ok ((path, target_header), st2,
                    es1 ++ [{ etype := .symlink, path := path, uid := meta.uid, gid := meta.gid,
                              mode := mode, size := 0, data := [], linkTarget := target,
                              literalLink := symlink_is_denormal target }])
              else .error "assertion failed: file_type == SymbolicLink"

/-- `OstreeTarWriter::append_dir`: a directory entry carrying the
dirmeta's ownership and filtered mode. -/
def append_dir_entry (st : WState) (dirpath : String) (meta : DirMetaParsed) : Entry :=
  { etype := .directory, path := dirpath, uid := meta.uid, gid := meta.gid,
    mode := filter_mode st.options meta.mode, size := 0, data := [],
    linkTarget := "", literalLink := false }

/-- Hex digit character, as produced by Rust's `{:02x}` formatting. -/
def hexDigitChar (n : Nat) : Char :=
  if n < 10 then Char.ofNat (48 + n) else Char.ofNat (87 + n)

/-- Two-digit lowercase hex rendering of `n ≤ 255` (`{:02x}`). -/
def hex2 (n : Nat) : String :=
  String.mk [hexDigitChar (n / 16 % 16), hexDigitChar (n % 16)]

/-- The location of the repository configuration file for each format
version (the `match self.options.format_version` block of
`write_repo_structure`; unsupported versions are a configuration error). -/
def repoConfigPath (v : Nat) : Except String String :=
  match v with
  | 0 => .ok "sysroot/config"
  | 1 => .ok "sysroot/ostree/repo/config"
  | n => .error ("Unsupported ostree tar format version " ++ toString n)

/-- `OstreeTarWriter::write_repo_structure`: the fixed scaffolding —
ancestors of the object directory, 256 shard directories, tmp and refs
directories, the format-0-only shared xattrs directory and the repo
configuration file (whose location depends on the format version;
versions other than 0 and 1 are a configuration error). -/
def write_repo_structure (st : WState) : Except String (WState × List Entry) :=
  if st.wrote_initdirs then .ok (st, [])
  else
    let parents := [mkDefaultDir "sysroot", mkDefaultDir "sysroot/ostree",
                    mkDefaultDir "sysroot/ostree/repo", mkDefaultDir "sysroot/ostree/repo/objects"]
    let shards := (List.range 256).map (fun d => mkDefaultDir ("sysroot/ostree/repo/objects/" ++ hex2 d))
    let tmps := [mkDefaultDir "sysroot/ostree/repo/tmp", mkDefaultDir "sysroot/ostree/repo/tmp/cache"]
    let refDirs := [mkDefaultDir "sysroot/ostree/repo/refs", mkDefaultDir "sysroot/ostree/repo/refs/heads",
                    mkDefaultDir "sysroot/ostree/repo/refs/mirrors", mkDefaultDir "sysroot/ostree/repo/refs/remotes"]
    let xdir := if st.options.format_version = 0 then [mkDefaultDir "sysroot/ostree/repo/xattrs"] else []
    match repoConfigPath st.options.format_version with
    | .error e => .error e
    | .ok cfgPath =>
      .ok ({ st with wrote_initdirs := true },
           parents ++ shards ++ tmps ++ refDirs ++ xdir ++ [mkDefaultData cfgPath REPO_CONFIG])

/-- The `for file in files` loop of `append_dirtree`: write each file's
content object and hardlink it at its (possibly `/usr/etc`-remapped)
logical path. -/
def writeFiles (repo : Repo) (dirpath : String) :
    List (String × String) → WState → Except String (WState × List Entry)
  | [], st => .ok (st, [])
  | (name, csum) :: rest, st =>
    match append_content repo st csum with
    | .error e => .error e
    | .ok ((objpath, h), st1, es1) =>
      let subpath := map_path (joinPath dirpath name)
      let linkEntry : Entry := { etype := .link, path := subpath, uid := h.uid, gid := h.gid,
                                 mode := h.mode, size := 0, data := [], linkTarget := objpath,
                                 literalLink := false }
      match writeFiles repo dirpath rest st1 with
      | .error e => .error e
      | .ok (st2, es2) => .ok (st2, es1 ++ [linkEntry] ++ es2)

/-- The `for item in dirs` loop of `append_dirtree`, parametrized by the
recursive call into subtrees.  The dirmeta object is written before the
root-level `sysroot` name-collision check, exactly as in the source. -/
def writeDirsAux (repo : Repo)
    (recur : String → String → WState → Except String (WState × List Entry))
    (dirpath : String) (is_root : Bool) :
    List (String × String × String) → WState → Except String (WState × List Entry)
  | [], st => .ok (st, [])
  | (name, contents_csum, meta_csum) :: rest, st =>
    match repo.dirmetas meta_csum with
    | none => .error ("load_variant dirmeta failed: " ++ meta_csum)
    | some metadata =>
      let (st1, es1) := appendObj .dirMeta meta_csum (repo.dirmetaBytes meta_csum) st
      if is_root ∧ name = "sysroot" then
        match writeDirsAux repo recur dirpath is_root rest st1 with
        | .error e => .error e
        | .ok (st2, es2) => .ok (st2, es1 ++ es2)
      else
        let subpath := map_path (joinPath dirpath name)
        let dirEntry := append_dir_entry st1 subpath metadata
        match recur subpath contents_csum st1 with
        | .error e => .error e
        | .ok (st2, es2) =>
          match writeDirsAux repo recur dirpath is_root rest st2 with
          | .error e => .error e
          | .ok (st3, es3) => .ok (st3, es1 ++ [dirEntry] ++ es2 ++ es3)

/-- `OstreeTarWriter::append_dirtree`: write the dirtree object, then
its files, then recurse into its subdirectories.  Recursion depth is
bounded by explicit fuel (the source recurses on the finite on-disk
tree; exhausted fuel is an error, never hit with fuel ≥ tree depth). -/
def append_dirtree (repo : Repo) :
    Nat → String → String → Bool → WState → Except String (WState × List Entry)
  | 0, _, _, _, _ => .error "recursion depth exceeded"
  | fuel + 1, dirpath, checksum, is_root, st =>
    match repo.dirtrees checksum with
    | none => .error ("load_variant dirtree failed: " ++ checksum)
    | some dt =>
      let (st1, es1) := appendObj .dirTree checksum (repo.dirtreeBytes checksum) st
      match writeFiles repo dirpath dt.files st1 with
      | .error e => .error e
      | .ok (st2, es2) =>
        match writeDirsAux repo (fun dp cs s => append_dirtree repo fuel dp cs false s)
            dirpath is_root dt.dirs st2 with
        | .error e => .error e
        | .ok (st3, es3) => .ok (st3, es1 ++ es2 ++ es3)

/-- The `if let Some(commitmeta) = read_commit_detached_metadata(..)`
block of `write_commit`: write the detached commitmeta object when
present. -/
def appendDetachedMeta (repo : Repo) (checksum : String) (st : WState) : WState × List Entry :=
  match repo.detachedMeta checksum with
  | some commitmeta => appendObj .commitMeta checksum commitmeta st
  | none => (st, [])

/-- `OstreeTarWriter::write_commit`: root directory entry first, then
the scaffolding, the commit object, the optional detached commitmeta,
the root dirmeta, and finally the recursive tree walk. -/
def write_commit (repo : Repo) (fuel : Nat) (st : WState) (checksum : String) :
    Except String (WState × List Entry) :=
  match repo.commits checksum with
  | none => .error ("load_commit failed: " ++ checksum)
  | some commit =>
    match repo.dirmetas commit.metadata_csum with
    | none => .error ("load_variant dirmeta failed: " ++ commit.metadata_csum)
    | some metadata =>
      let rootEntry := append_dir_entry st "./" metadata
      match write_repo_structure st with
      | .error e => .error e
      | .ok (st1, es1) =>
        let (st2, es2) := appendObj .commit checksum (repo.commitBytes checksum) st1
        let (st3, es3) := appendDetachedMeta repo checksum st2
        let (st4, es4) := appendObj .dirMeta commit.metadata_csum
          (repo.dirmetaBytes commit.metadata_csum) st3
        match append_dirtree repo fuel "./" commit.contents_csum true st4 with
        | .error e => .error e
        | .ok (st5, es5) =>
          .ok (st5, [rootEntry] ++ es1 ++ es2 ++ es3 ++ es4 ++ es5)

/-- `impl_export`: run `write_commit` on a fresh writer. -/
def impl_export (repo : Repo) (fuel : Nat) (options : ExportOptions) (commit_checksum : String) :
    Except String (WState × List Entry) :=
  write_commit repo fuel (newWriter options) commit_checksum

/-! ## String helper lemmas -/

/-- Two strings with equal character lists are equal. -/
theorem strExt {a b : String} (h : a.data = b.data) : a = b := by
  cases a
  cases b
  exact congrArg String.mk h

/-- `stripPrefixStr` applied to an exact prefix-extension. -/
theorem stripPrefixStr_append (pre r : String) : stripPrefixStr pre (pre ++ r) = some r := by
  unfold stripPrefixStr
  rw [String.data_append]
  rw [if_pos (List.isPrefixOf_iff_prefix.mpr (List.prefix_append pre.data r.data))]
  rw [List.drop_left]

/-- `stripPrefixStr` succeeding means the string decomposes as prefix ++ rest. -/
theorem stripPrefixStr_eq_some {pre s r : String} (h : stripPrefixStr pre s = some r) :
    s = pre ++ r := by
  unfold stripPrefixStr at h
  by_cases hp : pre.data.isPrefixOf s.data
  · rw [if_pos hp] at h
    obtain ⟨t, ht⟩ := List.isPrefixOf_iff_prefix.mp hp
    apply strExt
    rw [String.data_append]
    cases h
    rw [← ht, List.drop_left]
  · rw [if_neg hp] at h
    exact absurd h (by simp)

/-- First two characters of `p ++ r` when `p` has length 2. -/
theorem strTakeTwo_append (p r : String) (hp : p.length = 2) : strTakeTwo (p ++ r) = p := by
  show String.mk ((p ++ r).data.take 2) = p
  rw [String.data_append, List.take_left' hp]

/-- Remainder after two characters of `p ++ r` when `p` has length 2. -/
theorem strDropTwo_append (p r : String) (hp : p.length = 2) : strDropTwo (p ++ r) = r := by
  show String.mk ((p ++ r).data.drop 2) = r
  rw [String.data_append, List.drop_left' hp]

/-! ## C7: filter_mode -/

/-- C7: under format version 0, `filter_mode` returns the mode word
unchanged (file-type bits included); under any other format version the
result is the input mode with exactly the `S_IFMT` file-type bits
cleared (bit-for-bit: a bit is set in the result iff it is set in the
input and not an `S_IFMT` bit), so only permission bits remain. -/
theorem c7_filter_mode_spec (v m : Nat) (hm : m < 2 ^ 32) :
    filter_mode ⟨0⟩ m = m ∧
    (v ≠ 0 → ∀ i, (filter_mode ⟨v⟩ m).testBit i = (m.testBit i && !(S_IFMT.testBit i))) := by
  constructor
  · simp [filter_mode]
  · intro hv i
    have hfm : filter_mode ⟨v⟩ m = m &&& S_IFMT_not32 := by
      simp [filter_mode, hv]
      rfl
    rw [hfm, Nat.testBit_land]
    rcases lt_or_le i 32 with hi | hi
    · have hbits : ∀ j, j < 32 → (S_IFMT_not32.testBit j = !S_IFMT.testBit j) := by decide
      rw [hbits i hi]
    · have hmf : m.testBit i = false :=
        Nat.testBit_lt_two_pow (lt_of_lt_of_le hm (Nat.pow_le_pow_right (by norm_num) hi))
      rw [hmf]
      simp

/-- Witness for C7 at mode `0o100644 = 33188` (a regular file). -/
theorem c7_filter_mode_witness :
    filter_mode ⟨0⟩ 33188 = 33188 ∧
    (∀ i, (filter_mode ⟨1⟩ 33188).testBit i = (Nat.testBit 33188 i && !(S_IFMT.testBit i))) :=
  ⟨(c7_filter_mode_spec 1 33188 (by norm_num)).1,
   (c7_filter_mode_spec 1 33188 (by norm_num)).2 (by decide)⟩

/-! ## C8: map_path -/

/-- C8: `map_path` rewrites every path under the `./usr/etc` prefix to
the same path re-rooted at `./etc` (in particular `./usr/etc/blah ↦
./etc/blah`), and leaves every other path unchanged (in particular
`/ ↦ /`). -/
theorem c8_map_path_spec (p r : String) :
    map_path ("./usr/etc/" ++ r) = "./etc/" ++ r ∧
    map_path "./usr/etc" = "./etc" ∧
    map_path "/" = "/" ∧
    map_path "./usr/etc/blah" = "./etc/blah" ∧
    (p ≠ "./usr/etc" → stripPrefixStr "./usr/etc/" p = none → map_path p = p) := by
  refine ⟨?_, by decide, by decide, by decide, ?_⟩
  · have hne : "./usr/etc/" ++ r ≠ "./usr/etc" := by
      intro h
      have hlen := congrArg (fun s => s.data.length) h
      simp [String.data_append] at hlen
    rw [map_path, if_neg hne, stripPrefixStr_append]
  · intro h1 h2
    rw [map_path, if_neg h1, h2]

/-- Witness for C8 with the non-matching path `./var/lib`. -/
theorem c8_map_path_witness :
    map_path ("./usr/etc/" ++ "blah") = "./etc/" ++ "blah" ∧ map_path "./var/lib" = "./var/lib" :=
  ⟨(c8_map_path_spec "./var/lib" "blah").1,
   (c8_map_path_spec "./var/lib" "blah").2.2.2.2 (by decide) (by decide)⟩

/-! ## C9: the four xattrs path helpers -/

/-- C9: for every checksum whose first two characters are `p` and
remainder is `r`, the four attribute path helpers produce exactly
`sysroot/ostree/repo/xattrs/<c>`, `…/objects/<p>/<r>.file.xattrs`,
`…/objects/<p>/<r>.file-xattrs` and `…/objects/<p>/<r>.file-xattrs-link`. -/
theorem c9_xattrs_paths_spec (p r : String) (hp : p.length = 2) :
    v0_xattrs_path (p ++ r) = "sysroot/ostree/repo/xattrs/" ++ (p ++ r) ∧
    v0_xattrs_object_path (p ++ r) =
      "sysroot/ostree/repo/objects/" ++ p ++ "/" ++ r ++ ".file.xattrs" ∧
    v1_xattrs_object_path (p ++ r) =
      "sysroot/ostree/repo/objects/" ++ p ++ "/" ++ r ++ ".file-xattrs" ∧
    v1_xattrs_link_object_path (p ++ r) =
      "sysroot/ostree/repo/objects/" ++ p ++ "/" ++ r ++ ".file-xattrs-link" := by
  refine ⟨?_, ?_, ?_, ?_⟩
  · rw [v0_xattrs_path]
    rfl
  · rw [v0_xattrs_object_path, strTakeTwo_append p r hp, strDropTwo_append p r hp]
    rfl
  · rw [v1_xattrs_object_path, strTakeTwo_append p r hp, strDropTwo_append p r hp]
    rfl
  · rw [v1_xattrs_link_object_path, strTakeTwo_append p r hp, strDropTwo_append p r hp]
    rfl

/-- Witness for C9 at the checksum used by the source's unit tests. -/
theorem c9_xattrs_paths_witness :
    v0_xattrs_path ("b8" ++ "627e3ef0f255a322d2bd9610cfaaacc8f122b7f8d17c0e7e3caafa160f9fc7") =
      "sysroot/ostree/repo/xattrs/" ++
        ("b8" ++ "627e3ef0f255a322d2bd9610cfaaacc8f122b7f8d17c0e7e3caafa160f9fc7") ∧
    v0_xattrs_object_path ("b8" ++ "627e3ef0f255a322d2bd9610cfaaacc8f122b7f8d17c0e7e3caafa160f9fc7") =
      "sysroot/ostree/repo/objects/" ++ "b8" ++ "/" ++
        "627e3ef0f255a322d2bd9610cfaaacc8f122b7f8d17c0e7e3caafa160f9fc7" ++ ".file.xattrs" ∧
    v1_xattrs_object_path ("b8" ++ "627e3ef0f255a322d2bd9610cfaaacc8f122b7f8d17c0e7e3caafa160f9fc7") =
      "sysroot/ostree/repo/objects/" ++ "b8" ++ "/" ++
        "627e3ef0f255a322d2bd9610cfaaacc8f122b7f8d17c0e7e3caafa160f9fc7" ++ ".file-xattrs" ∧
    v1_xattrs_link_object_path ("b8" ++ "627e3ef0f255a322d2bd9610cfaaacc8f122b7f8d17c0e7e3caafa160f9fc7") =
      "sysroot/ostree/repo/objects/" ++ "b8" ++ "/" ++
        "627e3ef0f255a322d2bd9610cfaaacc8f122b7f8d17c0e7e3caafa160f9fc7" ++ ".file-xattrs-link" :=
  c9_xattrs_paths_spec "b8" "627e3ef0f255a322d2bd9610cfaaacc8f122b7f8d17c0e7e3caafa160f9fc7" (by decide)

/-! ## C3 and C10: find_layer_blobid -/

/-- A manifest with exactly one eligible layer whose digest carries no
`sha256:` prefix. -/
def c3Manifest : Manifest := ⟨[⟨DOCKER_TYPE_LAYER, "deadbeef"⟩]⟩

/-- Reduction of `find_layer_blobid` when no layer is eligible. -/
theorem find_layer_blobid_of_filter_nil (m : Manifest)
    (hfe : m.layers.filter layerEligible = []) :
    find_layer_blobid m = .error ("No layers found (orig: " ++ toString m.layers.length ++ ")") := by
  rw [find_layer_blobid, hfe]

/-- Reduction of `find_layer_blobid` when at least one layer is eligible. -/
theorem find_layer_blobid_of_filter_cons (m : Manifest) (l : Layer) (rest : List Layer)
    (hfe : m.layers.filter layerEligible = l :: rest) :
    find_layer_blobid m =
      if (l :: rest).length > 1 then
        .error ("Expected 1 layer, found " ++ toString (l :: rest).length)
      else
        match stripPrefixStr "sha256:" l.digest with
        | some hash => .ok hash
        | none => .error ("Expected sha256: in digest: " ++ l.digest) := by
  rw [find_layer_blobid, hfe]

/-- C3 counterexample: on a manifest with exactly one eligible layer,
`find_layer_blobid` does not return that layer's digest — it fails —
because the digest lacks the `sha256:` prefix. -/
theorem c3_single_eligible_layer_can_fail :
    (c3Manifest.layers.filter layerEligible).length = 1 ∧
    find_layer_blobid c3Manifest = .error "Expected sha256: in digest: deadbeef" := by
  constructor
  · decide
  · rfl

/-- C3 (amended): `find_layer_blobid` errors when zero layers are
eligible, errors when two or more are eligible, and when exactly one
eligible layer exists *and its digest begins with `sha256:`*, returns
the digest with that prefix stripped (the bare hex string). -/
theorem c3_find_layer_blobid_amended (m : Manifest) :
    (m.layers.filter layerEligible = [] → ∃ e, find_layer_blobid m = .error e) ∧
    (2 ≤ (m.layers.filter layerEligible).length → ∃ e, find_layer_blobid m = .error e) ∧
    (∀ l h, m.layers.filter layerEligible = [l] → l.digest = "sha256:" ++ h →
      find_layer_blobid m = .ok h) := by
  refine ⟨?_, ?_, ?_⟩
  · intro hf
    exact ⟨"No layers found (orig: " ++ toString m.layers.length ++ ")",
      find_layer_blobid_of_filter_nil m hf⟩
  · intro hlen
    rcases hfe : m.layers.filter layerEligible with _ | ⟨l, rest⟩
    · rw [hfe] at hlen
      simp at hlen
    · rw [hfe] at hlen
      have hgt : (l :: rest).length > 1 := by
        simpa using hlen
      refine ⟨"Expected 1 layer, found " ++ toString (l :: rest).length, ?_⟩
      rw [find_layer_blobid_of_filter_cons m l rest hfe, if_pos hgt]
  · intro l h hfe hd
    have hn : ¬ ([l].length > 1) := by simp
    rw [find_layer_blobid_of_filter_cons m l [] hfe, if_neg hn, hd, stripPrefixStr_append]

/-- Witness for C3 (amended), exercising all three branches on concrete
manifests. -/
theorem c3_find_layer_blobid_witness :
    (∃ e, find_layer_blobid ⟨[]⟩ = .error e) ∧
    (∃ e, find_layer_blobid ⟨[⟨DOCKER_TYPE_LAYER, "sha256:aa"⟩, ⟨OCI_TYPE_LAYER, "sha256:bb"⟩]⟩ = .error e) ∧
    find_layer_blobid ⟨[⟨DOCKER_TYPE_LAYER, "sha256:aa"⟩]⟩ = .ok "aa" :=
  ⟨(c3_find_layer_blobid_amended ⟨[]⟩).1 (by decide),
   (c3_find_layer_blobid_amended ⟨[⟨DOCKER_TYPE_LAYER, "sha256:aa"⟩, ⟨OCI_TYPE_LAYER, "sha256:bb"⟩]⟩).2.1
     (by decide),
   (c3_find_layer_blobid_amended ⟨[⟨DOCKER_TYPE_LAYER, "sha256:aa"⟩]⟩).2.2
     ⟨DOCKER_TYPE_LAYER, "sha256:aa"⟩ "aa" (by decide) (by decide)⟩

/-- C10: with exactly one eligible layer whose digest does not begin
with `sha256:`, `find_layer_blobid` errors; and every success means the
filtered layer list was a singleton whose digest is `sha256:` followed
by exactly the returned hash. -/
theorem c10_find_layer_blobid_digest_form (m : Manifest) (l : Layer) (h : String) :
    (m.layers.filter layerEligible = [l] →
      stripPrefixStr "sha256:" l.digest = none → ∃ e, find_layer_blobid m = .error e) ∧
    (find_layer_blobid m = .ok h →
      ∃ l2, m.layers.filter layerEligible = [l2] ∧ l2.digest = "sha256:" ++ h) := by
  constructor
  · intro hfe hstrip
    have hn : ¬ ([l].length > 1) := by simp
    refine ⟨"Expected sha256: in digest: " ++ l.digest, ?_⟩
    rw [find_layer_blobid_of_filter_cons m l [] hfe, if_neg hn, hstrip]
  · intro hok
    rcases hfe : m.layers.filter layerEligible with _ | ⟨l2, rest⟩
    · rw [find_layer_blobid_of_filter_nil m hfe] at hok
      exact absurd hok (by simp)
    · rw [find_layer_blobid_of_filter_cons m l2 rest hfe] at hok
      by_cases hlen : (l2 :: rest).length > 1
      · rw [if_pos hlen] at hok
        exact absurd hok (by simp)
      · rw [if_neg hlen] at hok
        have hrest : rest = [] := by
          cases rest with
          | nil => rfl
          | cons a t => exact absurd (by simp) hlen
        subst hrest
        refine ⟨l2, rfl, ?_⟩
        rcases hs : stripPrefixStr "sha256:" l2.digest with _ | r
        · rw [hs] at hok
          exact absurd hok (by simp)
        · rw [hs] at hok
          have hd := stripPrefixStr_eq_some hs
          simp only [Except.ok.injEq] at hok
          rw [hd, hok]

/-- Witness for C10 on concrete manifests. -/
theorem c10_find_layer_blobid_digest_form_witness :
    (∃ e, find_layer_blobid ⟨[⟨OCI_TYPE_LAYER, "md5:zz"⟩]⟩ = .error e) ∧
    (∃ l2, (Manifest.mk [⟨OCI_TYPE_LAYER, "sha256:cc"⟩]).layers.filter layerEligible = [l2] ∧
      l2.digest = "sha256:" ++ "cc") :=
  ⟨(c10_find_layer_blobid_digest_form ⟨[⟨OCI_TYPE_LAYER, "md5:zz"⟩]⟩ ⟨OCI_TYPE_LAYER, "md5:zz"⟩ "x").1
     (by decide) (by decide),
   (c10_find_layer_blobid_digest_form ⟨[⟨OCI_TYPE_LAYER, "sha256:cc"⟩]⟩ ⟨OCI_TYPE_LAYER, "sha256:cc"⟩ "cc").2
     (by rfl)⟩

/-! ## Path shape lemmas

Character-list normal forms of the archive paths, used to prove the
export-ordering and deduplication invariants. -/

/-- Character-list shape shared by all sharded object paths:
`sysroot/ostree/repo/objects/<2 chars>/<rest><suffix>`. -/
def objData (c : String) (suf : List Char) : List Char :=
  "sysroot/ostree/repo/objects/".data ++ (c.data.take 2 ++ ('/' :: (c.data.drop 2 ++ suf)))

theorem strTakeTwo_data (c : String) : (strTakeTwo c).data = c.data.take 2 := rfl

theorem strDropTwo_data (c : String) : (strDropTwo c).data = c.data.drop 2 := rfl

theorem data_objprefix (X : List Char) :
    ("sysroot/ostree" : String).data ++ (("/repo/objects/" : String).data ++ X) =
      ("sysroot/ostree/repo/objects/" : String).data ++ X := by
  rw [← List.append_assoc]
  rfl

theorem data_xattrsprefix (X : List Char) :
    ("sysroot/ostree" : String).data ++ (("/repo/xattrs/" : String).data ++ X) =
      ("sysroot/ostree/repo/xattrs/" : String).data ++ X := by
  rw [← List.append_assoc]
  rfl

theorem data_slash_cons (Y : List Char) : ("/" : String).data ++ Y = '/' :: Y := rfl

theorem object_path_data (t : ObjType) (c : String) :
    (object_path t c).data = objData c ("." ++ objSuffix t).data := by
  simp only [object_path, objData, OSTREEDIR, String.data_append, strTakeTwo_data,
    strDropTwo_data, List.append_assoc, data_objprefix, data_slash_cons]
  rfl

theorem object_path_file_data (c : String) :
    (object_path .file c).data = objData c ".file".data :=
  object_path_data .file c

theorem object_path_commit_data (c : String) :
    (object_path .commit c).data = objData c ".commit".data :=
  object_path_data .commit c

theorem object_path_commitMeta_data (c : String) :
    (object_path .commitMeta c).data = objData c ".commitmeta".data :=
  object_path_data .commitMeta c

theorem object_path_dirTree_data (c : String) :
    (object_path .dirTree c).data = objData c ".dirtree".data :=
  object_path_data .dirTree c

theorem object_path_dirMeta_data (c : String) :
    (object_path .dirMeta c).data = objData c ".dirmeta".data :=
  object_path_data .dirMeta c

theorem v0_xattrs_object_path_data (c : String) :
    (v0_xattrs_object_path c).data = objData c ".file.xattrs".data := by
  simp only [v0_xattrs_object_path, objData, OSTREEDIR, String.data_append, strTakeTwo_data,
    strDropTwo_data, List.append_assoc, data_objprefix, data_slash_cons]
  rfl

theorem v1_xattrs_object_path_data (c : String) :
    (v1_xattrs_object_path c).data = objData c ".file-xattrs".data := by
  simp only [v1_xattrs_object_path, objData, OSTREEDIR, String.data_append, strTakeTwo_data,
    strDropTwo_data, List.append_assoc, data_objprefix, data_slash_cons]
  rfl

theorem v1_xattrs_link_object_path_data (c : String) :
    (v1_xattrs_link_object_path c).data = objData c ".file-xattrs-link".data := by
  simp only [v1_xattrs_link_object_path, objData, OSTREEDIR, String.data_append, strTakeTwo_data,
    strDropTwo_data, List.append_assoc, data_objprefix, data_slash_cons]
  rfl

theorem v0_xattrs_path_data (c : String) :
    (v0_xattrs_path c).data = ("sysroot/ostree/repo/xattrs/" : String).data ++ c.data := by
  simp only [v0_xattrs_path, OSTREEDIR, String.data_append, List.append_assoc, data_xattrsprefix]
  rfl

theorem objData_length (c : String) (s : List Char) :
    (objData c s).length = 29 + c.data.length + s.length := by
  simp only [objData, List.length_append, List.length_cons, List.length_take, List.length_drop,
    show ("sysroot/ostree/repo/objects/" : String).data.length = 28 from rfl]
  omega

theorem objData_head (c : String) (s : List Char) : (objData c s).head? = some 's' := by
  rw [objData,
    show ("sysroot/ostree/repo/objects/" : String).data =
      's' :: "ysroot/ostree/repo/objects/".data from rfl,
    List.cons_append]
  rfl

theorem objData_inj {c1 c2 : String} {s1 s2 : List Char} (hlen : s1.length = s2.length)
    (h : objData c1 s1 = objData c2 s2) : c1 = c2 ∧ s1 = s2 := by
  have hc : c1.data.length = c2.data.length := by
    have hl := congrArg List.length h
    rw [objData_length, objData_length] at hl
    omega
  unfold objData at h
  have h2 := List.append_cancel_left h
  have ht := List.append_inj h2 (by simp [hc])
  have h3 : c1.data.drop 2 ++ s1 = c2.data.drop 2 ++ s2 := by
    have := ht.2
    simpa using this
  have h4 := List.append_inj' h3 hlen
  refine ⟨strExt ?_, h4.2⟩
  calc c1.data = c1.data.take 2 ++ c1.data.drop 2 := (List.take_append_drop 2 c1.data).symm
  _ = c2.data.take 2 ++ c2.data.drop 2 := by rw [ht.1, h4.1]
  _ = c2.data := List.take_append_drop 2 c2.data

theorem objData_rev_take (c : String) (s : List Char) (hk : 5 ≤ s.length) :
    (objData c s).reverse.take 5 = s.reverse.take 5 := by
  unfold objData
  simp only [List.reverse_append, List.reverse_cons, List.append_assoc]
  rw [List.take_append_of_le_length (by simpa using hk)]

theorem objData_ne_of_rev5 {c1 c2 : String} {s1 s2 : List Char} (h51 : 5 ≤ s1.length)
    (h52 : 5 ≤ s2.length) (hne : s1.reverse.take 5 ≠ s2.reverse.take 5) :
    objData c1 s1 ≠ objData c2 s2 := by
  intro h
  exact hne (by rw [← objData_rev_take c1 s1 h51, ← objData_rev_take c2 s2 h52, h])

/-- The commit object path is never a file content object path. -/
theorem commit_path_ne_file_path (a b : String) : object_path .commit a ≠ object_path .file b := by
  intro h
  have hd := congrArg String.data h
  rw [object_path_commit_data, object_path_file_data] at hd
  exact objData_ne_of_rev5 (by decide) (by decide) (by decide) hd

/-- The commitmeta object path is never a file content object path. -/
theorem commitMeta_path_ne_file_path (a b : String) :
    object_path .commitMeta a ≠ object_path .file b := by
  intro h
  have hd := congrArg String.data h
  rw [object_path_commitMeta_data, object_path_file_data] at hd
  exact objData_ne_of_rev5 (by decide) (by decide) (by decide) hd

/-- The dirtree object path is never a file content object path. -/
theorem dirTree_path_ne_file_path (a b : String) :
    object_path .dirTree a ≠ object_path .file b := by
  intro h
  have hd := congrArg String.data h
  rw [object_path_dirTree_data, object_path_file_data] at hd
  exact objData_ne_of_rev5 (by decide) (by decide) (by decide) hd

/-- The dirmeta object path is never a file content object path. -/
theorem dirMeta_path_ne_file_path (a b : String) :
    object_path .dirMeta a ≠ object_path .file b := by
  intro h
  have hd := congrArg String.data h
  rw [object_path_dirMeta_data, object_path_file_data] at hd
  exact objData_ne_of_rev5 (by decide) (by decide) (by decide) hd

/-- The format-1 xattrs blob path is never a file content object path. -/
theorem v1_xattrs_object_path_ne_file_path (a b : String) :
    v1_xattrs_object_path a ≠ object_path .file b := by
  intro h
  have hd := congrArg String.data h
  rw [v1_xattrs_object_path_data, object_path_file_data] at hd
  exact objData_ne_of_rev5 (by decide) (by decide) (by decide) hd

/-- The format-0 per-file xattrs link path is never a format-1 xattrs
link path. -/
theorem v0_xattrs_object_path_ne_v1_link_path (a b : String) :
    v0_xattrs_object_path a ≠ v1_xattrs_link_object_path b := by
  intro h
  have hd := congrArg String.data h
  rw [v0_xattrs_object_path_data, v1_xattrs_link_object_path_data] at hd
  exact objData_ne_of_rev5 (by decide) (by decide) (by decide) hd

/-- The format-0 shared xattrs blob path is never a file content object
path (they live in different subtrees of the repo). -/
theorem v0_xattrs_path_ne_file_path (a b : String) :
    v0_xattrs_path a ≠ object_path .file b := by
  intro h
  have hd := congrArg String.data h
  rw [v0_xattrs_path_data, object_path_file_data, objData] at hd
  rw [show ("sysroot/ostree/repo/xattrs/" : String).data =
        ("sysroot/ostree/repo/" : String).data ++ ("xattrs/" : String).data from rfl,
      show ("sysroot/ostree/repo/objects/" : String).data =
        ("sysroot/ostree/repo/" : String).data ++ ("objects/" : String).data from rfl,
      List.append_assoc, List.append_assoc] at hd
  have h2 := List.append_cancel_left hd
  rw [show ("xattrs/" : String).data = 'x' :: ("attrs/" : String).data from rfl,
      show ("objects/" : String).data = 'o' :: ("bjects/" : String).data from rfl,
      List.cons_append, List.cons_append] at h2
  simp at h2

/-- The format-0 config path is never a file content object path. -/
theorem config0_ne_file_path (b : String) : ("sysroot/config" : String) ≠ object_path .file b := by
  intro h
  have hd := congrArg (fun s => s.data.length) h
  simp only [object_path_file_data, objData_length,
    show ("sysroot/config" : String).data.length = 14 from rfl,
    show (".file" : String).data.length = 5 from rfl] at hd
  omega

/-- The format-1 config path is never a file content object path. -/
theorem config1_ne_file_path (b : String) :
    ("sysroot/ostree/repo/config" : String) ≠ object_path .file b := by
  intro h
  have hd := congrArg (fun s => s.data.length) h
  simp only [object_path_file_data, objData_length,
    show ("sysroot/ostree/repo/config" : String).data.length = 26 from rfl,
    show (".file" : String).data.length = 5 from rfl] at hd
  omega

/-- File content object paths are injective in the checksum. -/
theorem object_path_file_inj {a b : String} (h : object_path .file a = object_path .file b) :
    a = b := by
  have hd := congrArg String.data h
  rw [object_path_file_data, object_path_file_data] at hd
  exact (objData_inj rfl hd).1

/-- Format-0 xattrs link paths are injective in the checksum. -/
theorem v0_xattrs_object_path_inj {a b : String}
    (h : v0_xattrs_object_path a = v0_xattrs_object_path b) : a = b := by
  have hd := congrArg String.data h
  rw [v0_xattrs_object_path_data, v0_xattrs_object_path_data] at hd
  exact (objData_inj rfl hd).1

/-- Format-1 xattrs link paths are injective in the checksum. -/
theorem v1_xattrs_link_object_path_inj {a b : String}
    (h : v1_xattrs_link_object_path a = v1_xattrs_link_object_path b) : a = b := by
  have hd := congrArg String.data h
  rw [v1_xattrs_link_object_path_data, v1_xattrs_link_object_path_data] at hd
  exact (objData_inj rfl hd).1

/-- Format-0 xattrs link paths start with the character `s`. -/
theorem v0_xattrs_object_path_head (a : String) :
    (v0_xattrs_object_path a).data.head? = some 's' := by
  rw [v0_xattrs_object_path_data]
  exact objData_head a _

/-- Format-1 xattrs link paths start with the character `s`. -/
theorem v1_xattrs_link_object_path_head (a : String) :
    (v1_xattrs_link_object_path a).data.head? = some 's' := by
  rw [v1_xattrs_link_object_path_data]
  exact objData_head a _

/-- `joinPath` keeps the first character of a non-empty directory path. -/
theorem joinPath_head (d n : String) (c : Char) (hd : d.data.head? = some c) :
    (joinPath d n).data.head? = some c := by
  rw [joinPath]
  rcases hdata : d.data with _ | ⟨x, xs⟩
  · rw [hdata] at hd
    simp at hd
  · rw [hdata] at hd
    simp only [List.head?_cons, Option.some.injEq] at hd
    by_cases hsl : d.data.getLast? = some '/'
    · rw [hdata] at hsl
      rw [if_pos hsl, String.data_append, hdata, List.cons_append, ← hd]
      rfl
    · rw [hdata] at hsl
      rw [if_neg hsl, String.data_append, String.data_append, hdata, List.cons_append,
        List.cons_append, ← hd]
      rfl

/-- `map_path` keeps a leading dot. -/
theorem map_path_head (p : String) (hp : p.data.head? = some '.') :
    (map_path p).data.head? = some '.' := by
  rw [map_path]
  by_cases h1 : p = "./usr/etc"
  · rw [if_pos h1]
    rfl
  · rw [if_neg h1]
    rcases hs : stripPrefixStr "./usr/etc/" p with _ | r
    · exact hp
    · rw [String.data_append]
      rfl

/-! ## Emission invariant for the export ordering claim -/

/-- `e` is the content entry of the file object with checksum `c`
(a regular-file stream or symlink entry at the canonical object path). -/
def isContentFor (c : String) (e : Entry) : Prop :=
  e.path = object_path .file c ∧ (e.etype = EntryType.regular ∨ e.etype = EntryType.symlink)

/-- `e` is an attribute entry addressed by file checksum `c` (the
format-0 `.file.xattrs` hardlink or the format-1 `.file-xattrs-link`). -/
def isXattrFor (c : String) (e : Entry) : Prop :=
  e.etype = EntryType.link ∧
    (e.path = v0_xattrs_object_path c ∨ e.path = v1_xattrs_link_object_path c)

/-- `e` is a per-file entry (content or attribute) for checksum `c`. -/
def entryFor (c : String) (e : Entry) : Prop := isContentFor c e ∨ isXattrFor c e

/-- Ordering relation for C5: once a file's content entry has been
emitted, no attribute entry for that same file may follow. -/
def noLaterXattr (e e2 : Entry) : Prop := ∀ c, isContentFor c e → ¬ isXattrFor c e2

/-- The emission invariant carried through the recursive export walk:
the `wrote_content` set only grows; entries for an already-written
checksum are never re-emitted; any emitted per-file entry lands in the
final `wrote_content` set; and within the emitted segment no attribute
entry follows the content entry of the same file. -/
def Emits (st st2 : WState) (es : List Entry) : Prop :=
  (∀ c, c ∈ st.wrote_content → c ∈ st2.wrote_content) ∧
  (∀ c, c ∈ st.wrote_content → ∀ e ∈ es, ¬ entryFor c e) ∧
  (∀ c e, e ∈ es → entryFor c e → c ∈ st2.wrote_content) ∧
  List.Pairwise noLaterXattr es

theorem pairwise_noLaterXattr_of_not_content {es : List Entry}
    (h : ∀ e ∈ es, ∀ c, ¬ isContentFor c e) : List.Pairwise noLaterXattr es := by
  induction es with
  | nil => exact List.Pairwise.nil
  | cons e rest ih =>
    refine List.Pairwise.cons ?_ (ih fun e2 he2 => h e2 (List.mem_cons_of_mem e he2))
    intro e2 _ c hc
    exact absurd hc (h e (List.mem_cons_self e rest) c)

theorem emits_nil (st : WState) : Emits st st [] :=
  ⟨fun _ h => h, fun _ _ e he => absurd he (List.not_mem_nil e),
   fun _ e he => absurd he (List.not_mem_nil e), List.Pairwise.nil⟩

theorem emits_neutral {st st2 : WState} {es : List Entry}
    (hwc : st2.wrote_content = st.wrote_content)
    (h : ∀ e ∈ es, ∀ c, ¬ entryFor c e) : Emits st st2 es := by
  refine ⟨?_, ?_, ?_, ?_⟩
  · intro c hc
    rw [hwc]
    exact hc
  · intro c _ e he
    exact h e he c
  · intro c e he hef
    exact absurd hef (h e he c)
  · exact pairwise_noLaterXattr_of_not_content (fun e he c hc => h e he c (Or.inl hc))

theorem emits_comp {st st1 st2 : WState} {es1 es2 : List Entry}
    (h1 : Emits st st1 es1) (h2 : Emits st1 st2 es2) : Emits st st2 (es1 ++ es2) := by
  obtain ⟨m1, p1, q1, w1⟩ := h1
  obtain ⟨m2, p2, q2, w2⟩ := h2
  refine ⟨fun c hc => m2 c (m1 c hc), ?_, ?_, ?_⟩
  · intro c hc e he
    rcases List.mem_append.mp he with h | h
    · exact p1 c hc e h
    · exact p2 c (m1 c hc) e h
  · intro c e he hef
    rcases List.mem_append.mp he with h | h
    · exact m2 c (q1 c e h hef)
    · exact q2 c e h hef
  · rw [List.pairwise_append]
    refine ⟨w1, w2, ?_⟩
    intro a ha b hb c hc hx
    exact p2 c (q1 c a ha (Or.inl hc)) b hb (Or.inr hx)

theorem not_entryFor_of_directory {e : Entry} (h : e.etype = EntryType.directory) (c : String) :
    ¬ entryFor c e := by
  rintro (⟨_, h2 | h2⟩ | ⟨h2, _⟩) <;> rw [h] at h2 <;> exact absurd h2 (by decide)

theorem not_isXattrFor_of_regular {e : Entry} (h : e.etype = EntryType.regular) (c : String) :
    ¬ isXattrFor c e := by
  rintro ⟨h2, _⟩
  rw [h] at h2
  exact absurd h2 (by decide)

theorem not_isContentFor_of_link {e : Entry} (h : e.etype = EntryType.link) (c : String) :
    ¬ isContentFor c e := by
  rintro ⟨_, h2 | h2⟩ <;> rw [h] at h2 <;> exact absurd h2 (by decide)

theorem not_isXattrFor_of_head_dot {e : Entry} (hh : e.path.data.head? = some '.') (c : String) :
    ¬ isXattrFor c e := by
  rintro ⟨_, hp | hp⟩
  · rw [hp, v0_xattrs_object_path_head] at hh
    simp at hh
  · rw [hp, v1_xattrs_link_object_path_head] at hh
    simp at hh

/-- `appendObj` only emits metadata-object entries, which are never
per-file entries, and it never touches `wrote_content`. -/
theorem appendObj_emits (t : ObjType) (cs : String) (data : List Nat) (st : WState) :
    Emits st (appendObj t cs data st).1 (appendObj t cs data st).2 := by
  cases t with
  | commit =>
    refine emits_neutral rfl ?_
    intro e he c
    simp only [appendObj, List.mem_singleton] at he
    subst he
    rintro (⟨hp, _⟩ | ⟨ht, _⟩)
    · exact commit_path_ne_file_path cs c hp
    · simp [mkDefaultData] at ht
  | commitMeta =>
    refine emits_neutral rfl ?_
    intro e he c
    simp only [appendObj, List.mem_singleton] at he
    subst he
    rintro (⟨hp, _⟩ | ⟨ht, _⟩)
    · exact commitMeta_path_ne_file_path cs c hp
    · simp [mkDefaultData] at ht
  | dirTree =>
    by_cases hm : cs ∈ st.wrote_dirtree
    · simp only [appendObj, if_pos hm]
      exact emits_nil st
    · simp only [appendObj, if_neg hm]
      refine emits_neutral rfl ?_
      intro e he c
      simp only [List.mem_singleton] at he
      subst he
      rintro (⟨hp, _⟩ | ⟨ht, _⟩)
      · exact dirTree_path_ne_file_path cs c hp
      · simp [mkDefaultData] at ht
  | dirMeta =>
    by_cases hm : cs ∈ st.wrote_dirmeta
    · simp only [appendObj, if_pos hm]
      exact emits_nil st
    · simp only [appendObj, if_neg hm]
      refine emits_neutral rfl ?_
      intro e he c
      simp only [List.mem_singleton] at he
      subst he
      rintro (⟨hp, _⟩ | ⟨ht, _⟩)
      · exact dirMeta_path_ne_file_path cs c hp
      · simp [mkDefaultData] at ht
  | file => exact emits_nil st

/-- The entries emitted by `append_xattrs` are never content entries,
and its attribute-link entries are addressed only by the file's own
checksum; `wrote_content` is untouched. -/
theorem append_xattrs_emits {repo : Repo} {st : WState} {cs : String} {xb : List Nat}
    {b : Bool} {st2 : WState} {es : List Entry}
    (h : append_xattrs repo st cs xb = .ok (b, st2, es)) :
    st2.wrote_content = st.wrote_content ∧
    ∀ e ∈ es, (∀ c2, ¬ isContentFor c2 e) ∧ (∀ c2, isXattrFor c2 e → c2 = cs) := by
  rw [append_xattrs] at h
  by_cases h0 : xb = [] ∧ st.options.format_version = 0
  · rw [if_pos h0] at h
    simp only [Except.ok.injEq, Prod.mk.injEq] at h
    obtain ⟨-, rfl, rfl⟩ := h
    exact ⟨rfl, fun e he => absurd he (List.not_mem_nil e)⟩
  · rw [if_neg h0] at h
    by_cases h1 : st.options.format_version = 0
    · rw [if_pos h1] at h
      simp only [Except.ok.injEq, Prod.mk.injEq] at h
      obtain ⟨-, rfl, rfl⟩ := h
      constructor
      · rw [xattrsBlobWrite]
        split <;> rfl
      · intro e he
        rcases List.mem_append.mp he with hblob | hlink
        · have heq : e = mkDefaultData (v0_xattrs_path (repo.sha256hex xb)) xb := by
            rw [xattrsBlobWrite] at hblob
            split at hblob
            · exact absurd hblob (List.not_mem_nil e)
            · simpa using hblob
          subst heq
          refine ⟨fun c2 => ?_, fun c2 hx => ?_⟩
          · rintro ⟨hp, _⟩
            exact v0_xattrs_path_ne_file_path _ c2 hp
          · have hxt := hx.1
            simp [mkDefaultData] at hxt
        · simp only [List.mem_singleton] at hlink
          subst hlink
          refine ⟨fun c2 => not_isContentFor_of_link rfl c2, fun c2 hx => ?_⟩
          rcases hx.2 with hp | hp
          · exact v0_xattrs_object_path_inj hp.symm
          · exact absurd hp (v0_xattrs_object_path_ne_v1_link_path cs c2)
    · by_cases h2 : st.options.format_version = 1
      · rw [if_neg h1, if_pos h2] at h
        simp only [Except.ok.injEq, Prod.mk.injEq] at h
        obtain ⟨-, rfl, rfl⟩ := h
        constructor
        · rw [xattrsBlobWrite]
          split <;> rfl
        · intro e he
          rcases List.mem_append.mp he with hblob | hlink
          · have heq : e = mkDefaultData (v1_xattrs_object_path (repo.sha256hex xb)) xb := by
              rw [xattrsBlobWrite] at hblob
              split at hblob
              · exact absurd hblob (List.not_mem_nil e)
              · simpa using hblob
            subst heq
            refine ⟨fun c2 => ?_, fun c2 hx => ?_⟩
            · rintro ⟨hp, _⟩
              exact v1_xattrs_object_path_ne_file_path _ c2 hp
            · have hxt := hx.1
              simp [mkDefaultData] at hxt
          · simp only [List.mem_singleton] at hlink
            subst hlink
            refine ⟨fun c2 => not_isContentFor_of_link rfl c2, fun c2 hx => ?_⟩
            rcases hx.2 with hp | hp
            · exact absurd hp.symm (v0_xattrs_object_path_ne_v1_link_path c2 cs)
            · exact v1_xattrs_link_object_path_inj hp.symm
      · rw [if_neg h1, if_neg h2] at h
        exact absurd h (by simp)

/-- Core emission fact for the unseen branch of `append_content`: the
xattrs entries followed by the single content entry satisfy the
emission invariant. -/
theorem emits_content_core {st stx : WState} {cs : String} {es1 : List Entry} {e : Entry}
    (hm : cs ∉ st.wrote_content)
    (hwc : stx.wrote_content = cs :: st.wrote_content)
    (hents : ∀ e2 ∈ es1, (∀ c2, ¬ isContentFor c2 e2) ∧ (∀ c2, isXattrFor c2 e2 → c2 = cs))
    (hce : ∀ c2, entryFor c2 e → c2 = cs)
    (hnx : ∀ c2, ¬ isXattrFor c2 e) :
    Emits st stx (es1 ++ [e]) := by
  refine ⟨?_, ?_, ?_, ?_⟩
  · intro c hc
    rw [hwc]
    exact List.mem_cons_of_mem cs hc
  · intro c hc e2 he2 hef
    rcases List.mem_append.mp he2 with hin | hin
    · obtain ⟨hnc, hxc⟩ := hents e2 hin
      rcases hef with hco | hx
      · exact hnc c hco
      · have hccs := hxc c hx
        rw [hccs] at hc
        exact hm hc
    · simp only [List.mem_singleton] at hin
      subst hin
      have hccs := hce c hef
      rw [hccs] at hc
      exact hm hc
  · intro c e2 he2 hef
    rw [hwc]
    rcases List.mem_append.mp he2 with hin | hin
    · obtain ⟨hnc, hxc⟩ := hents e2 hin
      rcases hef with hco | hx
      · exact absurd hco (hnc c)
      · rw [hxc c hx]
        exact List.mem_cons_self cs st.wrote_content
    · simp only [List.mem_singleton] at hin
      subst hin
      rw [hce c hef]
      exact List.mem_cons_self cs st.wrote_content
  · rw [List.pairwise_append]
    refine ⟨pairwise_noLaterXattr_of_not_content (fun e2 he2 c => (hents e2 he2).1 c),
      List.pairwise_singleton _ _, ?_⟩
    intro a ha b hb c hc
    exact absurd hc ((hents a ha).1 c)

/-- Every successful `append_content` call satisfies the emission
invariant: nothing is emitted for an already-written checksum, the
emitted entries are exactly for this file, and its xattrs entries
precede its content entry. -/
theorem append_content_emits {repo : Repo} {st : WState} {cs : String}
    {ph : String × Header} {st2 : WState} {es : List Entry}
    (h : append_content repo st cs = .ok (ph, st2, es)) : Emits st st2 es := by
  simp only [append_content] at h
  rcases hlf : repo.loadFile cs with _ | ⟨instream, metaOpt, xattrsOpt⟩
  · simp [hlf] at h
  · simp only [hlf] at h
    rcases metaOpt with _ | meta
    · simp at h
    · rcases xattrsOpt with _ | xattrs
      · simp at h
      · simp only [] at h
        by_cases hm : cs ∈ st.wrote_content
        · rw [if_pos hm] at h
          simp only [Except.ok.injEq, Prod.mk.injEq] at h
          obtain ⟨-, rfl, rfl⟩ := h
          exact emits_nil st
        · rw [if_neg hm] at h
          rcases hax : append_xattrs repo { st with wrote_content := cs :: st.wrote_content }
              cs xattrs with e | ⟨b, stx, es1⟩
          · simp [hax] at h
          · simp only [hax] at h
            obtain ⟨hwc, hents⟩ := append_xattrs_emits hax
            rcases instream with _ | contents
            · simp only [] at h
              by_cases hft : meta.ftype = GFileType.symbolicLink
              · rw [if_pos hft] at h
                rcases hst : meta.symlinkTarget with _ | target
                · simp [hst] at h
                · simp only [hst] at h
                  simp only [Except.ok.injEq, Prod.mk.injEq] at h
                  obtain ⟨-, rfl, rfl⟩ := h
                  refine emits_content_core hm (by rw [hwc]) hents ?_ ?_
                  · intro c2 hef
                    rcases hef with ⟨hp, _⟩ | ⟨ht, _⟩
                    · exact object_path_file_inj hp.symm
                    · simp at ht
                  · intro c2
                    rintro ⟨ht, _⟩
                    simp at ht
              · simp [hft] at h
            · simp only [] at h
              by_cases hft : meta.ftype = GFileType.regular
              · rw [if_pos hft] at h
                simp only [Except.ok.injEq, Prod.mk.injEq] at h
                obtain ⟨-, rfl, rfl⟩ := h
                refine emits_content_core hm (by rw [hwc]) hents ?_ ?_
                · intro c2 hef
                  rcases hef with ⟨hp, _⟩ | ⟨ht, _⟩
                  · exact object_path_file_inj hp.symm
                  · simp at ht
                · intro c2
                  rintro ⟨ht, _⟩
                  simp at ht
              · simp [hft] at h

/-- The file loop of `append_dirtree` satisfies the emission invariant
whenever the directory path starts with a dot (logical paths never
collide with the `sysroot/…` object paths). -/
theorem writeFiles_emits {repo : Repo} {dirpath : String} (hd : dirpath.data.head? = some '.') :
    ∀ {fs : List (String × String)} {st st2 : WState} {es : List Entry},
      writeFiles repo dirpath fs st = .ok (st2, es) → Emits st st2 es := by
  intro fs
  induction fs with
  | nil =>
    intro st st2 es h
    simp only [writeFiles, Except.ok.injEq, Prod.mk.injEq] at h
    obtain ⟨rfl, rfl⟩ := h
    exact emits_nil st
  | cons pair rest ih =>
    intro st st2 es h
    obtain ⟨name, csum⟩ := pair
    simp only [writeFiles] at h
    rcases hac : append_content repo st csum with e | ⟨⟨objpath, hdr⟩, st1, es1⟩
    · simp [hac] at h
    · simp only [hac] at h
      rcases hwf : writeFiles repo dirpath rest st1 with e | ⟨st2', es2⟩
      · simp [hwf] at h
      · simp only [hwf, Except.ok.injEq, Prod.mk.injEq] at h
        obtain ⟨rfl, rfl⟩ := h
        refine emits_comp (emits_comp (append_content_emits hac) ?_) (ih hwf)
        refine emits_neutral rfl ?_
        intro e he c
        simp only [List.mem_singleton] at he
        subst he
        rintro (hco | hx)
        · exact not_isContentFor_of_link rfl c hco
        · exact not_isXattrFor_of_head_dot
            (map_path_head _ (joinPath_head dirpath name '.' hd)) c hx

/-- The subdirectory loop of `append_dirtree` satisfies the emission
invariant, given that the recursive call does. -/
theorem writeDirsAux_emits {repo : Repo}
    {recur : String → String → WState → Except String (WState × List Entry)}
    (hrec : ∀ dp cs s s2 es, dp.data.head? = some '.' → recur dp cs s = .ok (s2, es) →
      Emits s s2 es)
    {dirpath : String} (hd : dirpath.data.head? = some '.') {is_root : Bool} :
    ∀ {ds : List (String × String × String)} {st st2 : WState} {es : List Entry},
      writeDirsAux repo recur dirpath is_root ds st = .ok (st2, es) → Emits st st2 es := by
  intro ds
  induction ds with
  | nil =>
    intro st st2 es h
    simp only [writeDirsAux, Except.ok.injEq, Prod.mk.injEq] at h
    obtain ⟨rfl, rfl⟩ := h
    exact emits_nil st
  | cons item rest ih =>
    intro st st2 es h
    obtain ⟨name, ccs, mcs⟩ := item
    simp only [writeDirsAux] at h
    rcases hdm : repo.dirmetas mcs with _ | metadata
    · simp [hdm] at h
    · simp only [hdm] at h
      rcases hobj : appendObj .dirMeta mcs (repo.dirmetaBytes mcs) st with ⟨st1, es1⟩
      simp only [hobj] at h
      have hobjE : Emits st st1 es1 := by
        have hx := appendObj_emits .dirMeta mcs (repo.dirmetaBytes mcs) st
        rw [hobj] at hx
        exact hx
      by_cases hroot : is_root = true ∧ name = "sysroot"
      · rw [if_pos hroot] at h
        rcases hw : writeDirsAux repo recur dirpath is_root rest st1 with e | ⟨st2', es2⟩
        · simp [hw] at h
        · simp only [hw, Except.ok.injEq, Prod.mk.injEq] at h
          obtain ⟨rfl, rfl⟩ := h
          exact emits_comp hobjE (ih hw)
      · rw [if_neg hroot] at h
        rcases hr : recur (map_path (joinPath dirpath name)) ccs st1 with e | ⟨st2', es2⟩
        · simp [hr] at h
        · simp only [hr] at h
          rcases hw : writeDirsAux repo recur dirpath is_root rest st2' with e | ⟨st3, es3⟩
          · simp [hw] at h
          · simp only [hw, Except.ok.injEq, Prod.mk.injEq] at h
            obtain ⟨rfl, rfl⟩ := h
            have hdirE : Emits st1 st1
                [append_dir_entry st1 (map_path (joinPath dirpath name)) metadata] := by
              refine emits_neutral rfl ?_
              intro e he c
              simp only [List.mem_singleton] at he
              subst he
              exact not_entryFor_of_directory rfl c
            have hrecE := hrec _ ccs st1 st2' es2
              (map_path_head _ (joinPath_head dirpath name '.' hd)) hr
            exact emits_comp (emits_comp (emits_comp hobjE hdirE) hrecE) (ih hw)

/-- The recursive tree walk satisfies the emission invariant. -/
theorem append_dirtree_emits (repo : Repo) :
    ∀ (fuel : Nat) (dp cs : String) (ir : Bool) (st st2 : WState) (es : List Entry),
      dp.data.head? = some '.' →
      append_dirtree repo fuel dp cs ir st = .ok (st2, es) → Emits st st2 es := by
  intro fuel
  induction fuel with
  | zero =>
    intro dp cs ir st st2 es hd h
    simp [append_dirtree] at h
  | succ fuel ih =>
    intro dp cs ir st st2 es hd h
    simp only [append_dirtree] at h
    rcases hdt : repo.dirtrees cs with _ | dt
    · simp [hdt] at h
    · simp only [hdt] at h
      rcases hobj : appendObj .dirTree cs (repo.dirtreeBytes cs) st with ⟨st1, es1⟩
      simp only [hobj] at h
      have hobjE : Emits st st1 es1 := by
        have hx := appendObj_emits .dirTree cs (repo.dirtreeBytes cs) st
        rw [hobj] at hx
        exact hx
      rcases hwf : writeFiles repo dp dt.files st1 with e | ⟨st2', es2⟩
      · simp [hwf] at h
      · simp only [hwf] at h
        rcases hwd : writeDirsAux repo (fun dp2 cs2 s => append_dirtree repo fuel dp2 cs2 false s)
            dp ir dt.dirs st2' with e | ⟨st3, es3⟩
        · simp [hwd] at h
        · simp only [hwd, Except.ok.injEq, Prod.mk.injEq] at h
          obtain ⟨rfl, rfl⟩ := h
          have hrec : ∀ dp2 cs2 s s2 es4, dp2.data.head? = some '.' →
              (fun dp2 cs2 s => append_dirtree repo fuel dp2 cs2 false s) dp2 cs2 s = .ok (s2, es4) →
              Emits s s2 es4 :=
            fun dp2 cs2 s s2 es4 hdp hr => ih dp2 cs2 false s s2 es4 hdp hr
          exact emits_comp (emits_comp hobjE (writeFiles_emits hd hwf))
            (writeDirsAux_emits hrec hd hwd)

/-- Reading back which config path `repoConfigPath` can return. -/
theorem repoConfigPath_ok {v : Nat} {p : String} (h : repoConfigPath v = .ok p) :
    p = "sysroot/config" ∨ p = "sysroot/ostree/repo/config" := by
  match v, h with
  | 0, h =>
    simp only [repoConfigPath, Except.ok.injEq] at h
    exact Or.inl h.symm
  | 1, h =>
    simp only [repoConfigPath, Except.ok.injEq] at h
    exact Or.inr h.symm
  | (n + 2), h =>
    simp [repoConfigPath] at h

/-- The scaffolding entries are all neutral: directories plus the
config file, none of which is a per-file content or attribute entry. -/
theorem write_repo_structure_emits {st st2 : WState} {es : List Entry}
    (h : write_repo_structure st = .ok (st2, es)) : Emits st st2 es := by
  simp only [write_repo_structure] at h
  by_cases hinit : st.wrote_initdirs
  · rw [if_pos hinit] at h
    simp only [Except.ok.injEq, Prod.mk.injEq] at h
    obtain ⟨rfl, rfl⟩ := h
    exact emits_nil st
  · rw [if_neg hinit] at h
    rcases hcfg : repoConfigPath st.options.format_version with e | cfgPath
    · simp [hcfg] at h
    · simp only [hcfg, Except.ok.injEq, Prod.mk.injEq] at h
      obtain ⟨rfl, rfl⟩ := h
      refine emits_neutral rfl ?_
      intro e he c
      simp only [List.mem_append] at he
      rcases he with ((((hp | hs) | ht) | hr) | hx) | hc2
      · simp only [List.mem_cons, List.mem_singleton, List.not_mem_nil, or_false] at hp
        rcases hp with rfl | rfl | rfl | rfl <;> exact not_entryFor_of_directory rfl c
      · obtain ⟨d, -, rfl⟩ := List.mem_map.mp hs
        exact not_entryFor_of_directory rfl c
      · simp only [List.mem_cons, List.mem_singleton, List.not_mem_nil, or_false] at ht
        rcases ht with rfl | rfl <;> exact not_entryFor_of_directory rfl c
      · simp only [List.mem_cons, List.mem_singleton, List.not_mem_nil, or_false] at hr
        rcases hr with rfl | rfl | rfl | rfl <;> exact not_entryFor_of_directory rfl c
      · by_cases hv : st.options.format_version = 0
        · rw [if_pos hv] at hx
          simp only [List.mem_singleton] at hx
          subst hx
          exact not_entryFor_of_directory rfl c
        · rw [if_neg hv] at hx
          exact absurd hx (List.not_mem_nil e)
      · simp only [List.mem_singleton] at hc2
        subst hc2
        rintro (⟨hpp, _⟩ | hx)
        · rcases repoConfigPath_ok hcfg with rfl | rfl
          · exact config0_ne_file_path c hpp
          · exact config1_ne_file_path c hpp
        · exact not_isXattrFor_of_regular rfl c hx

/-- Writing the optional detached commitmeta is neutral. -/
theorem appendDetachedMeta_emits (repo : Repo) (cs : String) (st : WState) :
    Emits st (appendDetachedMeta repo cs st).1 (appendDetachedMeta repo cs st).2 := by
  rw [appendDetachedMeta]
  rcases repo.detachedMeta cs with _ | commitmeta
  · exact emits_nil st
  · exact appendObj_emits .commitMeta cs commitmeta st

/-- The whole `write_commit` run satisfies the emission invariant. -/
theorem write_commit_emits {repo : Repo} {fuel : Nat} {st : WState} {cs : String}
    {st2 : WState} {es : List Entry}
    (h : write_commit repo fuel st cs = .ok (st2, es)) : Emits st st2 es := by
  simp only [write_commit] at h
  rcases hc : repo.commits cs with _ | commit
  · simp [hc] at h
  · simp only [hc] at h
    rcases hdm : repo.dirmetas commit.metadata_csum with _ | metadata
    · simp [hdm] at h
    · simp only [hdm] at h
      rcases hrs : write_repo_structure st with e | ⟨st1, es1⟩
      · simp [hrs] at h
      · simp only [hrs] at h
        rcases hobj2 : appendObj .commit cs (repo.commitBytes cs) st1 with ⟨stA, esA⟩
        simp only [hobj2] at h
        rcases hobj3 : appendDetachedMeta repo cs stA with ⟨stB, esB⟩
        simp only [hobj3] at h
        rcases hobj4 : appendObj .dirMeta commit.metadata_csum
            (repo.dirmetaBytes commit.metadata_csum) stB with ⟨stC, esC⟩
        simp only [hobj4] at h
        rcases hdtree : append_dirtree repo fuel "./" commit.contents_csum true stC
          with e | ⟨stD, esD⟩
        · simp [hdtree] at h
        · simp only [hdtree, Except.ok.injEq, Prod.mk.injEq] at h
          obtain ⟨rfl, rfl⟩ := h
          have hroot : Emits st st [append_dir_entry st "./" metadata] := by
            refine emits_neutral rfl ?_
            intro e he c
            simp only [List.mem_singleton] at he
            subst he
            exact not_entryFor_of_directory rfl c
          have hA : Emits st1 stA esA := by
            have hx := appendObj_emits .commit cs (repo.commitBytes cs) st1
            rw [hobj2] at hx
            exact hx
          have hB : Emits stA stB esB := by
            have hx := appendDetachedMeta_emits repo cs stA
            rw [hobj3] at hx
            exact hx
          have hC : Emits stB stC esC := by
            have hx := appendObj_emits .dirMeta commit.metadata_csum
              (repo.dirmetaBytes commit.metadata_csum) stB
            rw [hobj4] at hx
            exact hx
          have hD : Emits stC stD esD :=
            append_dirtree_emits repo fuel "./" commit.contents_csum true stC stD esD rfl hdtree
          exact emits_comp (emits_comp (emits_comp (emits_comp
            (emits_comp hroot (write_repo_structure_emits hrs)) hA) hB) hC) hD

/-- C5: in every successful export run, for every file whose content
object is emitted, the attribute entries addressed by that file's
checksum (the format-0 `.file.xattrs` hardlink and the format-1
`.file-xattrs-link` entry) appear in the archive strictly before the
file's own content entry (its regular-file stream or symlink entry):
pairwise over the emitted entry list, no attribute entry for a checksum
ever follows the content entry for the same checksum. -/
theorem c5_xattrs_before_content (repo : Repo) (fuel : Nat) (options : ExportOptions)
    (cs : String) (res : WState × List Entry)
    (h : impl_export repo fuel options cs = .ok res) :
    List.Pairwise noLaterXattr res.2 := by
  rw [impl_export] at h
  rcases res with ⟨stf, out⟩
  exact (write_commit_emits h).2.2.2

/-! ## C2: append_xattrs functional behaviour -/

/-- C2: `append_xattrs` on an empty blob under format 0 writes nothing
and reports no content written; under format 1 it always reports content
written and always appends the `.file-xattrs-link` entry addressed by
the file's checksum (preceded by the attribute object itself when its
digest is unseen — even for an empty blob); any other format version is
an error. -/
theorem c2_append_xattrs_spec (repo : Repo) (st : WState) (cs : String) (xb : List Nat) :
    (st.options.format_version = 0 → xb = [] →
      append_xattrs repo st cs xb = .ok (false, st, [])) ∧
    (st.options.format_version = 1 →
      ∃ st2 es, append_xattrs repo st cs xb = .ok (true, st2, es) ∧
        (repo.sha256hex xb ∉ st.wrote_xattrs →
          es = [mkDefaultData (v1_xattrs_object_path (repo.sha256hex xb)) xb,
                mkDefaultHardlink (v1_xattrs_link_object_path cs)
                  (v1_xattrs_object_path (repo.sha256hex xb))]) ∧
        (repo.sha256hex xb ∈ st.wrote_xattrs →
          es = [mkDefaultHardlink (v1_xattrs_link_object_path cs)
                  (v1_xattrs_object_path (repo.sha256hex xb))])) ∧
    (st.options.format_version ≠ 0 → st.options.format_version ≠ 1 →
      append_xattrs repo st cs xb =
        .error ("Unknown format version " ++ toString st.options.format_version)) := by
  refine ⟨?_, ?_, ?_⟩
  · intro h0 hxb
    rw [append_xattrs, if_pos ⟨hxb, h0⟩]
  · intro h1
    have hn0 : st.options.format_version ≠ 0 := by omega
    by_cases hm : repo.sha256hex xb ∈ st.wrote_xattrs
    · refine ⟨st, _, ?_, fun habs => absurd hm habs, fun _ => rfl⟩
      simp [append_xattrs, xattrsBlobWrite, h1, hn0, hm]
    · refine ⟨{ st with wrote_xattrs := cs :: st.wrote_xattrs }, _, ?_, fun _ => rfl,
        fun habs => absurd habs hm⟩
      simp [append_xattrs, xattrsBlobWrite, h1, hn0, hm]
  · intro h0 h1
    rw [append_xattrs, if_neg (by rintro ⟨-, h⟩; exact h0 h), if_neg h0, if_neg h1]

/-! ## C1: the concrete duplicated xattrs blob write

A format-0 export of a commit whose root tree holds two files with
distinct checksums but identical (non-empty) extended attributes.  The
shared attribute blob — keyed by its own digest — gets written to the
archive twice, because the dedup set is queried with the blob digest but
inserted with the owning file's checksum. -/

/-- A concrete object store: commit `c0` with root dirtree `t0` holding
files `f1` (checksum `aa11`) and `f2` (checksum `bb22`), both regular
files with contents `[1]` and identical xattrs blob `[7]`.  The SHA-256
collaborator is abstracted as a fixed digest function mapping the (only
hashed) blob `[7]` to `dd77`. -/
def testRepo : Repo := {
  commits := fun c => if c = "c0" then some ⟨"t0", "m0"⟩ else none,
  commitBytes := fun _ => [99],
  detachedMeta := fun _ => none,
  dirtrees := fun c => if c = "t0" then some ⟨[("f1", "aa11"), ("f2", "bb22")], []⟩ else none,
  dirtreeBytes := fun _ => [116],
  dirmetas := fun c => if c = "m0" then some ⟨0, 0, 16877⟩ else none,
  dirmetaBytes := fun _ => [109],
  loadFile := fun c =>
    if c = "aa11" ∨ c = "bb22" then
      some (some [1], some ⟨0, 0, 33188, 1, GFileType.regular, none⟩, some [7])
    else none,
  sha256hex := fun _ => "dd77" }

/-- The archive produced by a format-0 export of `testRepo` (the run
succeeds; the default is never used). -/
def testExportRes : WState × List Entry :=
  (impl_export testRepo 3 ⟨0⟩ "c0").toOption.getD (newWriter ⟨0⟩, [])

set_option maxRecDepth 100000 in
/-- C1 failing input: the export of `testRepo` succeeds, yet the shared
xattrs blob object — the format-0 attribute object for digest `dd77`,
referenced by both files — is written to the archive twice, violating
the at-most-once guarantee for the xattrs object kind. -/
theorem c1_xattrs_blob_written_twice :
    impl_export testRepo 3 ⟨0⟩ "c0" = .ok testExportRes ∧
    testExportRes.2.countP (fun e => e.path == v0_xattrs_path "dd77") = 2 := by
  constructor
  · rfl
  · rfl

set_option maxRecDepth 100000 in
/-- Witness for C5 at the concrete export of `testRepo`. -/
theorem c5_xattrs_before_content_witness :
    List.Pairwise noLaterXattr testExportRes.2 :=
  c5_xattrs_before_content testRepo 3 ⟨0⟩ "c0" testExportRes (by rfl)

/-- Witness for C2: concrete writer states exercising each of the three
format branches (format 0 with empty blob, format 1, format 7). -/
theorem c2_append_xattrs_witness :
    (append_xattrs testRepo (newWriter ⟨0⟩) "aa11" [] = .ok (false, newWriter ⟨0⟩, [])) ∧
    (∃ st2 es, append_xattrs testRepo (newWriter ⟨1⟩) "aa11" [] = .ok (true, st2, es)) ∧
    (append_xattrs testRepo (newWriter ⟨7⟩) "aa11" [1] =
      .error ("Unknown format version " ++ toString (7 : Nat))) := by
  refine ⟨?_, ?_, ?_⟩
  · exact (c2_append_xattrs_spec testRepo (newWriter ⟨0⟩) "aa11" []).1 rfl rfl
  · obtain ⟨st2, es, heq, -, -⟩ := (c2_append_xattrs_spec testRepo (newWriter ⟨1⟩) "aa11" []).2.1 rfl
    exact ⟨st2, es, heq⟩
  · exact (c2_append_xattrs_spec testRepo (newWriter ⟨7⟩) "aa11" [1]).2.2 (by decide) (by decide)

/-! ## C6: progress reader totals -/

/-- The successive totals published for a read sequence, starting from
the value `v` stored in the channel. -/
def prPartials (v : Nat) : List Nat → List Nat
  | [] => []
  | k :: ks => (v + k) :: prPartials (v + k) ks

theorem pr_run_aux (sendOk : Nat → Bool) (hok : ∀ i, sendOk i = true) :
    ∀ (reads : List Nat) (v a : Nat) (P : List Nat), v + reads.sum < U64 →
      List.foldl (pr_step sendOk) ⟨v, true, P, a⟩ reads =
        ⟨v + reads.sum, true, P ++ prPartials v reads, a + reads.length⟩ := by
  intro reads
  induction reads with
  | nil =>
    intro v a P hv
    simp [prPartials]
  | cons k ks ih =>
    intro v a P hv
    have hvk : v + k + ks.sum < U64 := by
      simp only [List.sum_cons] at hv
      omega
    have hmod : (v + k) % U64 = v + k := Nat.mod_eq_of_lt (by omega)
    have hstep : pr_step sendOk ⟨v, true, P, a⟩ k = ⟨v + k, true, P ++ [v + k], a + 1⟩ := by
      simp [pr_step, hok a, hmod]
    rw [List.foldl_cons, hstep, ih (v + k) (a + 1) (P ++ [v + k]) hvk]
    simp only [prPartials, List.sum_cons, List.append_assoc, List.singleton_append,
      List.length_cons, PRState.mk.injEq]
    refine ⟨by omega, trivial, trivial, by omega⟩

theorem prPartials_chain (ks : List Nat) : ∀ v, List.Chain (· ≤ ·) v (prPartials v ks) := by
  induction ks with
  | nil =>
    intro v
    exact List.Chain.nil
  | cons k ks ih =>
    intro v
    exact List.Chain.cons (Nat.le_add_right v k) (ih (v + k))

theorem prPartials_getLast : ∀ (ks : List Nat) (v : Nat), ks ≠ [] →
    (prPartials v ks).getLast? = some (v + ks.sum) := by
  intro ks
  induction ks with
  | nil =>
    intro v h
    exact absurd rfl h
  | cons k ks ih =>
    intro v _
    cases ks with
    | nil => simp [prPartials]
    | cons k2 ks2 =>
      rw [prPartials, show prPartials (v + k) (k2 :: ks2) =
        (v + k + k2) :: prPartials (v + k + k2) ks2 from rfl, List.getLast?_cons_cons,
        ← show prPartials (v + k) (k2 :: ks2) =
          (v + k + k2) :: prPartials (v + k + k2) ks2 from rfl,
        ih (v + k) (by simp)]
      simp only [List.sum_cons, Option.some.injEq]
      omega

/-- C6: as long as the observer stays connected, the totals published by
the progress reader over one stream are monotonically non-decreasing,
and by end of stream the last published total (and the channel value)
equals the sum of all bytes delivered into the caller's read buffers. -/
theorem c6_progress_reader_spec (reads : List Nat) (sendOk : Nat → Bool)
    (hok : ∀ i, sendOk i = true) (hsum : reads.sum < U64) :
    List.Chain' (· ≤ ·) (pr_run sendOk reads).published ∧
    (pr_run sendOk reads).published.getLast?.getD 0 = reads.sum ∧
    (pr_run sendOk reads).chanVal = reads.sum := by
  have hrun : pr_run sendOk reads = ⟨0 + reads.sum, true, [] ++ prPartials 0 reads,
      0 + reads.length⟩ := by
    rw [pr_run, pr_init]
    exact pr_run_aux sendOk hok reads 0 0 [] (by omega)
  rw [hrun]
  refine ⟨?_, ?_, by simp⟩
  · simp only [List.nil_append]
    rcases hp : prPartials 0 reads with _ | ⟨x, xs⟩
    · trivial
    · have hch := prPartials_chain reads 0
      rw [hp] at hch
      exact (List.chain_cons.mp hch).2
  · simp only [List.nil_append]
    cases reads with
    | nil => simp [prPartials]
    | cons k ks =>
      rw [prPartials_getLast (k :: ks) 0 (by simp)]
      simp

/-- Witness for C6 at the concrete read sequence `[3, 5, 0]` with a
connected observer. -/
theorem c6_progress_reader_witness :
    List.Chain' (· ≤ ·) (pr_run (fun _ => true) [3, 5, 0]).published ∧
    (pr_run (fun _ => true) [3, 5, 0]).published.getLast?.getD 0 = List.sum [3, 5, 0] ∧
    (pr_run (fun _ => true) [3, 5, 0]).chanVal = List.sum [3, 5, 0] :=
  c6_progress_reader_spec [3, 5, 0] (fun _ => true) (fun _ => rfl) (by decide)

/-! ## C4: cooperative cancellation of the layer extraction worker -/

theorem forwardChunks_stop (sendOk : Nat → Bool) :
    ∀ (j : Nat) (chunks : List (List Nat)) (i : Nat), j < chunks.length →
      sendOk (i + j) = false → (∀ k, k < j → sendOk (i + k) = true) →
      (∀ c ∈ chunks, c ≠ []) →
      forwardChunks sendOk chunks i = (i + j + 1, chunks.take (j + 1)) := by
  intro j
  induction j with
  | zero =>
    intro chunks i hj hfail hmin hne
    cases chunks with
    | nil => simp at hj
    | cons c rest =>
      have hf : sendOk i = false := by simpa using hfail
      rw [forwardChunks, if_pos (Or.inl (by simp [hf]))]
      simp
  | succ j ih =>
    intro chunks i hj hfail hmin hne
    cases chunks with
    | nil => simp at hj
    | cons c rest =>
      have hsend : sendOk i = true := by simpa using hmin 0 (Nat.succ_pos j)
      have hcne : ¬ (c.length = 0) := by
        simp [List.length_eq_zero]
        exact hne c (List.mem_cons_self c rest)
      rw [forwardChunks, if_neg (by
        rintro (hno | hzero)
        · exact hno (by simp [hsend])
        · exact hcne hzero)]
      rw [ih rest (i + 1) (by simpa using hj)
        (by rw [show i + 1 + j = i + (j + 1) from by omega]; exact hfail)
        (fun k hk => by
          rw [show i + 1 + k = i + (k + 1) from by omega]
          exact hmin (k + 1) (by omega))
        (fun c2 hc2 => hne c2 (List.mem_cons_of_mem c hc2))]
      simp only [List.take_succ_cons, Prod.mk.injEq]
      exact ⟨by omega, trivial⟩

theorem runEntries_found (target : String) (sendOk : Nat → Bool) :
    ∀ (es : List TarEntry) (st : SyncSt), st.found = true →
      runEntries target sendOk es st = .ok st := by
  intro es
  induction es with
  | nil =>
    intro st _
    rfl
  | cons e rest ih =>
    intro st h
    rw [runEntries, List.foldlM_cons, stepEntry, if_pos h]
    show (Except.ok st >>= fun b => List.foldlM (stepEntry target sendOk) b rest) = .ok st
    rw [show (Except.ok st >>= fun b => List.foldlM (stepEntry target sendOk) b rest) =
      List.foldlM (stepEntry target sendOk) st rest from rfl]
    exact ih st h

theorem runEntries_append (target : String) (sendOk : Nat → Bool) (l1 l2 : List TarEntry)
    (st : SyncSt) :
    runEntries target sendOk (l1 ++ l2) st =
      runEntries target sendOk l1 st >>= fun st2 => runEntries target sendOk l2 st2 := by
  simp only [runEntries, List.foldlM_append]

/-- C4: if the channel consumer disconnects while the worker is
forwarding the target entry (the `j`-th send of that entry fails, all
earlier ones having succeeded), the worker stops sending exactly there,
still scans all remaining archive entries, and the whole run returns
success — partial consumption is not reported as an error. -/
theorem c4_consumer_disconnect_is_success (pre : List TarEntry) (e : TarEntry)
    (post : List TarEntry) (target : String) (sendOk : Nat → Bool) (st0 : SyncSt) (j : Nat)
    (hpre : runEntries target sendOk pre syncInit = .ok st0)
    (hnf : st0.found = false)
    (hreg : e.etype = TarEntryType.regular)
    (hext : extensionStr e.path = some "tar")
    (hj : j < e.chunks.length)
    (hfail : sendOk (st0.sendIdx + j) = false)
    (hmin : ∀ k, k < j → sendOk (st0.sendIdx + k) = true)
    (hch : ∀ c ∈ e.chunks, c ≠ []) :
    find_layer_tar_sync (pre ++ e :: post) target sendOk =
      .ok { found := true, sendIdx := st0.sendIdx + j + 1,
            sent := st0.sent ++ e.chunks.take (j + 1) } := by
  have hstep : stepEntry target sendOk st0 e =
      .ok { found := true, sendIdx := st0.sendIdx + j + 1,
            sent := st0.sent ++ e.chunks.take (j + 1) } := by
    rw [stepEntry, if_neg (by simp [hnf]), if_neg (by simp [hext]), hreg]
    rw [forwardChunks_stop sendOk j e.chunks st0.sendIdx hj hfail hmin hch]
  have hrunall : runEntries target sendOk (pre ++ e :: post) syncInit =
      .ok { found := true, sendIdx := st0.sendIdx + j + 1,
            sent := st0.sent ++ e.chunks.take (j + 1) } := by
    rw [runEntries_append, hpre]
    show runEntries target sendOk (e :: post) st0 = _
    rw [runEntries, List.foldlM_cons, hstep]
    show runEntries target sendOk post _ = _
    exact runEntries_found target sendOk post _ rfl
  rw [find_layer_tar_sync, hrunall]
  rfl

/-- Witness for C4: a three-chunk target entry whose second send fails,
followed by one further archive entry that is still drained. -/
theorem c4_consumer_disconnect_witness :
    find_layer_tar_sync
        ([] ++ ⟨"abc.tar", TarEntryType.regular, none, [[1], [2], [3]]⟩ ::
          [⟨"rest.tar", TarEntryType.other, none, []⟩])
        "../x.tar" (fun i => decide (i < 1)) =
      .ok { found := true, sendIdx := 0 + 1 + 1,
            sent := [] ++ List.take (1 + 1) [[1], [2], [3]] } :=
  c4_consumer_disconnect_is_success [] ⟨"abc.tar", TarEntryType.regular, none, [[1], [2], [3]]⟩
    [⟨"rest.tar", TarEntryType.other, none, []⟩] "../x.tar" (fun i => decide (i < 1))
    syncInit 1 rfl rfl rfl (by decide) (by decide) (by decide)
    (fun k hk => by
      interval_cases k
      decide)
    (by decide)

end Bootc

